import Mathlib

/-!
# mymuduo: Buffer, Channel and TcpConnection

A shallow embedding of the reactor core of the library (`Buffer.h`,
`Channel.h`, `Channel.cc`, `EventLoop.cc`, `TcpConnection.cc`) together with
theorems about it.

Conventions of the embedding.

* `size_t` and `int` values are natural numbers.  The constructor of `Buffer`
  takes its sum modulo `2 ^ 64`, since the caller chooses `initialSize` freely.
  The other sums of `Buffer` add an index of an allocated `std::vector<char>`
  and the length of a byte region that exists beside it, so they stay below
  `2 ^ 64`; statements in which such a length is a free number carry the bound
  as a hypothesis.
* A `(const char* data, size_t len)` pair is the list of the `len` bytes at
  `data`.
* Values produced by the operating system (the result of `::write`, of
  `Buffer::writeFd`, of `Buffer::readFd`, the calling thread) are inputs of
  the functions that consume them.
* Calls that leave the connection (system calls, user callbacks, the poller)
  are appended to a trace in program order.  Logging is not recorded.
-/

namespace Mymuduo

/-- One `char` of a buffer. -/
abbrev Byte := UInt8

/-! ## `Buffer.h` -/

/-- The class `Buffer`: `std::vector<char> buffer_` and the two indices. -/
structure Buffer where
  buffer_ : List Byte
  readerIndex_ : Nat
  writerIndex_ : Nat
  deriving DecidableEq, Repr

namespace Buffer

/-- `static const size_t kCheapPrepend = 8`. -/
def kCheapPrepend : Nat := 8

/-- `static const size_t kInitialSize = 1024`. -/
def kInitialSize : Nat := 1024

/-- The number of values of `size_t`: sizes and indices are the naturals
below it, and a sum that reaches it wraps around. -/
def sizeRange : Nat := 2 ^ 64

/-- The constructor `Buffer(size_t initialSize)`: a zero-filled vector of
`kCheapPrepend + initialSize` chars, the sum taken in `size_t`, and both
indices at `kCheapPrepend`. -/
def new (initialSize : Nat) : Buffer :=
  { buffer_ := List.replicate ((kCheapPrepend + initialSize) % sizeRange) 0
    readerIndex_ := kCheapPrepend
    writerIndex_ := kCheapPrepend }

/-- The default constructor, `initialSize = kInitialSize`. -/
def fresh : Buffer := new kInitialSize

/-- `buffer_.size()`. -/
def capacity (b : Buffer) : Nat := b.buffer_.length

def readableBytes (b : Buffer) : Nat := b.writerIndex_ - b.readerIndex_

def writableBytes (b : Buffer) : Nat := b.buffer_.length - b.writerIndex_

def prependableBytes (b : Buffer) : Nat := b.readerIndex_

/-- The bytes a caller sees through `peek()` when it reads `readableBytes()`
of them: `[begin() + readerIndex_, begin() + writerIndex_)`. -/
def peek (b : Buffer) : List Byte :=
  (b.buffer_.drop b.readerIndex_).take b.readableBytes

def retrieveAll (b : Buffer) : Buffer :=
  { b with readerIndex_ := kCheapPrepend, writerIndex_ := kCheapPrepend }

def retrieve (b : Buffer) (len : Nat) : Buffer :=
  if len < b.readableBytes then
    { b with readerIndex_ := b.readerIndex_ + len }
  else
    b.retrieveAll

/-- `retrieveAsString(len)`: the string built from `peek()` and `len`, and the
buffer after `retrieve(len)`. -/
def retrieveAsString (b : Buffer) (len : Nat) : List Byte × Buffer :=
  ((b.buffer_.drop b.readerIndex_).take len, b.retrieve len)

def retreiveAllAsString (b : Buffer) : List Byte × Buffer :=
  b.retrieveAsString b.readableBytes

/-- `std::vector<char>::resize(n)`: truncate, or pad with zero chars. -/
def vecResize (v : List Byte) (n : Nat) : List Byte :=
  v.take n ++ List.replicate (n - v.length) 0

/-- `std::copy(begin() + src, begin() + src + n, begin() + dst)` inside one
vector: `n` element assignments, lowest address first. -/
def copyWithin : Nat → Nat → Nat → List Byte → List Byte
  | 0, _, _, v => v
  | n + 1, src, dst, v => copyWithin n (src + 1) (dst + 1) (v.set dst (v.getD src 0))

/-- `std::copy(data, data + len, begin() + dst)` from memory outside the
vector: one element assignment per byte of `data`, lowest address first. -/
def copyIn : List Byte → Nat → List Byte → List Byte
  | [], _, v => v
  | x :: xs, dst, v => copyIn xs (dst + 1) (v.set dst x)

/-- `makeSpace(len)`.  The sums `len + kCheapPrepend`, `writerIndex_ + len` and
`writableBytes() + prependableBytes()` are written without reduction modulo
`sizeRange`: they are the sums of the code whenever the vector size and
`writerIndex_ + len` are below `sizeRange`, which is the case when `len` is
the length of a byte region that exists in memory beside the vector, as inside
`append`.  Statements about `makeSpace(len)` for a free `len` assume these
bounds. -/
def makeSpace (b : Buffer) (len : Nat) : Buffer :=
  if b.writableBytes + b.prependableBytes < len + kCheapPrepend then
    { b with buffer_ := vecResize b.buffer_ (b.writerIndex_ + len) }
  else
    let readable := b.readableBytes
    { buffer_ := copyWithin (b.writerIndex_ - b.readerIndex_) b.readerIndex_ kCheapPrepend b.buffer_
      readerIndex_ := kCheapPrepend
      writerIndex_ := kCheapPrepend + readable }

def ensureWritableBytes (b : Buffer) (len : Nat) : Buffer :=
  if b.writableBytes < len then b.makeSpace len else b

def append (b : Buffer) (data : List Byte) : Buffer :=
  let b1 := b.ensureWritableBytes data.length
  { b1 with
    buffer_ := copyIn data b1.writerIndex_ b1.buffer_
    writerIndex_ := b1.writerIndex_ + data.length }

/-- One call on a buffer. -/
inductive Op where
  | append (data : List Byte)
  | retrieve (len : Nat)
  | retrieveAll
  | retrieveAsString (len : Nat)
  | retreiveAllAsString
  deriving DecidableEq, Repr

/-- The buffer after one call (a returned string is dropped). -/
def step (b : Buffer) : Op → Buffer
  | .append data => b.append data
  | .retrieve len => b.retrieve len
  | .retrieveAll => b.retrieveAll
  | .retrieveAsString len => (b.retrieveAsString len).2
  | .retreiveAllAsString => b.retreiveAllAsString.2

/-- The buffer after a sequence of calls, first call first. -/
def run (b : Buffer) : List Op → Buffer
  | [] => b
  | op :: ops => run (b.step op) ops

/-- The class invariant drawn in the header comment of `Buffer.h`, with the
reader index never below the prepend area. -/
def Inv (b : Buffer) : Prop :=
  kCheapPrepend ≤ b.readerIndex_ ∧ b.readerIndex_ ≤ b.writerIndex_ ∧
    b.writerIndex_ ≤ b.buffer_.length

instance (b : Buffer) : Decidable b.Inv := by unfold Inv; infer_instance

/-- The concatenation of the byte strings appended by a sequence of calls,
in call order. -/
def appended : List Op → List Byte
  | [] => []
  | .append data :: ops => data ++ appended ops
  | _ :: ops => appended ops

/-- The total number of bytes consumed by the `retrieve` calls of a
sequence. -/
def retrieved : List Op → Nat
  | [] => 0
  | .retrieve len :: ops => len + retrieved ops
  | _ :: ops => retrieved ops

/-- A sequence made of `append` and `retrieve` calls only, in which every
`retrieve(len)` meets its precondition `len <= readableBytes()` at the moment
of the call. -/
def admissible (b : Buffer) : List Op → Bool
  | [] => true
  | .append data :: ops => admissible (b.append data) ops
  | .retrieve len :: ops => decide (len ≤ b.readableBytes) && admissible (b.retrieve len) ops
  | _ :: _ => false

end Buffer

/-! ## `Channel.h`, `Channel.cc` -/

/-- The event bits of `<sys/epoll.h>` on Linux. -/
def EPOLLIN : Nat := 0x001
def EPOLLPRI : Nat := 0x002
def EPOLLOUT : Nat := 0x004
def EPOLLERR : Nat := 0x008
def EPOLLHUP : Nat := 0x010

/-- The bit pattern of `~k` for a 32-bit `int`. -/
def bitNot32 (k : Nat) : Nat := 2 ^ 32 - 1 - k

/-- The class `Channel`.  A callback field says whether the `std::function`
holds a target; `tieAlive` says whether `tie_.lock()` yields an owner. -/
structure Channel where
  fd_ : Int
  event_ : Nat
  revent_ : Nat
  index_ : Int
  tied_ : Bool
  tieAlive : Bool
  readCallback_ : Bool
  writeCallback_ : Bool
  closeCallback_ : Bool
  errorCallback_ : Bool
  deriving DecidableEq, Repr

/-- The four handlers a channel can invoke. -/
inductive Handler where
  | close
  | error
  | read
  | write
  deriving DecidableEq, Repr

namespace Channel

def kNoneEvent : Nat := 0
def kReadEvent : Nat := EPOLLIN ||| EPOLLPRI
def kWriteEvent : Nat := EPOLLOUT

/-- The constructor `Channel(loop, fd)`; no callback is set. -/
def new (fd : Int) : Channel :=
  { fd_ := fd, event_ := 0, revent_ := 0, index_ := -1, tied_ := false, tieAlive := false
    readCallback_ := false, writeCallback_ := false, closeCallback_ := false
    errorCallback_ := false }

def tie (c : Channel) : Channel := { c with tied_ := true, tieAlive := true }

def set_revent (c : Channel) (revt : Nat) : Channel := { c with revent_ := revt }

/-- The assignments of `enableReading` and its siblings; the call of
`update()` that follows each of them is recorded by the owner. -/
def enableReading (c : Channel) : Channel := { c with event_ := c.event_ ||| kReadEvent }
def disableReading (c : Channel) : Channel :=
  { c with event_ := c.event_ &&& bitNot32 kReadEvent }
def enableWriting (c : Channel) : Channel := { c with event_ := c.event_ ||| kWriteEvent }
def disableWriting (c : Channel) : Channel :=
  { c with event_ := c.event_ &&& bitNot32 kWriteEvent }
def disableAll (c : Channel) : Channel := { c with event_ := kNoneEvent }

def isNoneEvent (c : Channel) : Bool := c.event_ == kNoneEvent
def isReading (c : Channel) : Bool := c.event_ &&& kReadEvent != 0
def isWriting (c : Channel) : Bool := c.event_ &&& kWriteEvent != 0

/-- The handlers invoked by `handleEventWithGuard`, in invocation order. -/
def handleEventWithGuard (c : Channel) : List Handler :=
  (if (c.revent_ &&& EPOLLHUP != 0) && !(c.revent_ &&& EPOLLIN != 0) then
      (if c.closeCallback_ then [Handler.close] else [])
    else []) ++
  (if c.revent_ &&& EPOLLERR != 0 then
      (if c.errorCallback_ then [Handler.error] else [])
    else []) ++
  (if c.revent_ &&& (EPOLLIN ||| EPOLLPRI) != 0 then
      (if c.readCallback_ then [Handler.read] else [])
    else []) ++
  (if c.revent_ &&& EPOLLOUT != 0 then
      (if c.writeCallback_ then [Handler.write] else [])
    else [])

def handleEvent (c : Channel) : List Handler :=
  if c.tied_ then
    if c.tieAlive then c.handleEventWithGuard else []
  else
    c.handleEventWithGuard

/-- The dispatch table of the specification, read off the bits of the
returned-event mask: close iff hang-up (bit 4) without readable (bit 0), error
iff error (bit 3), read iff readable or priority-readable (bit 1), write iff
writable (bit 2). -/
def wanted (revent : Nat) : Handler → Bool
  | .close => revent.testBit 4 && !revent.testBit 0
  | .error => revent.testBit 3
  | .read => revent.testBit 0 || revent.testBit 1
  | .write => revent.testBit 2

end Channel

/-! ## `EventLoop.cc` -/

/-- The part of `EventLoop` that callers of `runInLoop` and `queueInLoop`
see: the pending queue, the draining flag, and the number of `wakeup()`
calls made so far. -/
structure EventLoop (φ : Type) where
  pendingFunctors_ : List φ
  callingPendingFunctors_ : Bool
  wakeups : Nat
  deriving DecidableEq, Repr

namespace EventLoop

/-- `queueInLoop(cb)`; `inLoopThread` is the value of `isInLoopThread()`. -/
def queueInLoop {φ : Type} (l : EventLoop φ) (inLoopThread : Bool) (cb : φ) : EventLoop φ :=
  let l1 := { l with pendingFunctors_ := l.pendingFunctors_ ++ [cb] }
  if !inLoopThread || l1.callingPendingFunctors_ then
    { l1 with wakeups := l1.wakeups + 1 }
  else
    l1

/-- What `cb()` does to the loop it runs on: `spawn cb` lists the functors
that `cb` hands to `queueInLoop`, in call order.  The functor runs on the loop
thread, so `isInLoopThread()` is true in each of these calls. -/
def invoke {φ : Type} (spawn : φ → List φ) (l : EventLoop φ) (cb : φ) : EventLoop φ :=
  (spawn cb).foldl (fun l1 g => l1.queueInLoop true g) l

/-- `doPendingFunctors()`: the loop when the call returns, and the functors
the `for` statement invoked, in order.  `functors` is the local vector after
the swap with `pendingFunctors_`. -/
def doPendingFunctors {φ : Type} (spawn : φ → List φ) (l : EventLoop φ) :
    EventLoop φ × List φ :=
  let l1 := { l with callingPendingFunctors_ := true }
  let functors := l1.pendingFunctors_
  let l2 := { l1 with pendingFunctors_ := [] }
  let r := functors.foldl
    (fun (acc : EventLoop φ × List φ) functor =>
      (invoke spawn acc.1 functor, acc.2 ++ [functor]))
    (l2, [])
  ({ r.1 with callingPendingFunctors_ := false }, r.2)

end EventLoop

/-! ## `TcpConnection.cc` -/

/-- The error numbers of `<errno.h>` on Linux that `sendInLoop` tests. -/
def EWOULDBLOCK : Nat := 11
def EPIPE : Nat := 32
def ECONNRESET : Nat := 104

/-- The result of `::write` or of `Buffer::writeFd`: a byte count, or `-1`
with an error number. -/
inductive IoResult where
  | ok (n : Nat)
  | err (errno : Nat)
  deriving DecidableEq, Repr

/-- The contract of `write(2)`: a successful call reports at most the `len`
bytes it was given. -/
def IoResult.within (len : Nat) : IoResult → Bool
  | .ok n => decide (n ≤ len)
  | .err _ => true

/-- The result of `Buffer::readFd`: the bytes the kernel delivered (none at
end of stream), or `-1` with an error number. -/
inductive ReadResult where
  | data (bytes : List Byte)
  | err (errno : Nat)
  deriving DecidableEq, Repr

/-- Modelled from the spec: `Buffer::readFd`, declared in `Buffer.h` and
defined in a file that is not part of the sources.  A single scatter read
into the writable span and a spill-over area; when the kernel returned at
most `writableBytes()` only the writer index advances, otherwise the span is
filled and the overflow is passed to `append`. -/
def Buffer.readFd (b : Buffer) : ReadResult → Buffer
  | .data bytes =>
    let writable := b.writableBytes
    if bytes.length ≤ writable then
      { b with
        buffer_ := Buffer.copyIn bytes b.writerIndex_ b.buffer_
        writerIndex_ := b.writerIndex_ + bytes.length }
    else
      Buffer.append
        { b with
          buffer_ := Buffer.copyIn (bytes.take writable) b.writerIndex_ b.buffer_
          writerIndex_ := b.buffer_.length }
        (bytes.drop writable)
  | .err _ => b

/-- Modelled from the spec: the enumeration `StateE` of `TcpConnection.h`,
which is not part of the sources; the spec names its four values. -/
inductive StateE where
  | kDisConnected
  | kConnecting
  | kConnected
  | kDisConnecting
  deriving DecidableEq, Repr

/-- The function objects a connection passes to `EventLoop::runInLoop` and
`EventLoop::queueInLoop`. -/
inductive ConnFunctor where
  | sendInLoop (data : List Byte)
  | shutdownInLoop
  | writeCompleteCallback
  | highWaterMarkCallback (len : Nat)
  deriving DecidableEq, Repr

/-- The calls by which a connection acts on the world outside it. -/
inductive Effect where
  | setKeepAlive
  | write (data : List Byte)
  | writeFd (data : List Byte)
  | readFd
  | getsockopt
  | shutdownWrite
  | updateChannel (event : Nat)
  | removeChannel
  | connectionCallback (state : StateE)
  | messageCallback
  | closeCallback
  deriving DecidableEq, Repr

/-- Modelled from the spec: the data members of `TcpConnection`, declared in
`TcpConnection.h`, which is not part of the sources.  The fields are the
members `TcpConnection.cc` uses; a callback field says whether the
`std::function` holds a target; `trace` lists the outside calls made so far,
oldest first. -/
structure TcpConnection where
  loop_ : EventLoop ConnFunctor
  state_ : StateE
  reading_ : Bool
  channel_ : Channel
  inputBuffer_ : Buffer
  outputBuffer_ : Buffer
  highWaterMark_ : Nat
  writeCompleteCallback_ : Bool
  highWaterMarkCallback_ : Bool
  trace : List Effect
  deriving DecidableEq, Repr

namespace TcpConnection

/-- Record one outside call. -/
def emit (c : TcpConnection) (e : Effect) : TcpConnection :=
  { c with trace := c.trace ++ [e] }

def setState (c : TcpConnection) (s : StateE) : TcpConnection := { c with state_ := s }

/-- A mutator of `channel_` followed by its `update()`, which hands the new
interest mask to the poller of the loop. -/
def channelUpdate (c : TcpConnection) (f : Channel → Channel) : TcpConnection :=
  { c with channel_ := f c.channel_, trace := c.trace ++ [Effect.updateChannel (f c.channel_).event_] }

/-- The call `loop_->queueInLoop(cb)` made by code that runs on the loop thread. -/
def queueInLoop (c : TcpConnection) (cb : ConnFunctor) : TcpConnection :=
  { c with loop_ := c.loop_.queueInLoop true cb }

/-- `loop_->runInLoop(cb)`: `call` is what `cb()` does to the connection. -/
def runInLoop (c : TcpConnection) (inLoopThread : Bool) (cb : ConnFunctor)
    (call : TcpConnection → TcpConnection) : TcpConnection :=
  if inLoopThread then call c
  else { c with loop_ := c.loop_.queueInLoop false cb }

/-- The constructor, on a loop whose queue is empty: four channel callbacks
set, keep-alive switched on, default-constructed buffers. -/
def new (fd : Int) : TcpConnection :=
  { loop_ := { pendingFunctors_ := [], callingPendingFunctors_ := false, wakeups := 0 }
    state_ := .kConnecting
    reading_ := true
    channel_ :=
      { Channel.new fd with
        readCallback_ := true, writeCallback_ := true, closeCallback_ := true
        errorCallback_ := true }
    inputBuffer_ := Buffer.fresh
    outputBuffer_ := Buffer.fresh
    highWaterMark_ := 64 * 1024 * 1024
    writeCompleteCallback_ := false
    highWaterMarkCallback_ := false
    trace := [Effect.setKeepAlive] }

/-- The local variables of `sendInLoop` after its direct-write block. -/
structure SendLocals where
  conn : TcpConnection
  rwrote : Nat
  remaining : Nat
  faultError : Bool
  deriving DecidableEq, Repr

/-- The direct-write block of `sendInLoop`; `wr` is the result of `::write`
and is looked at only when the call is made. -/
def sendInLoopDirect (c : TcpConnection) (data : List Byte) (wr : IoResult) : SendLocals :=
  if !c.channel_.isWriting && c.outputBuffer_.readableBytes == 0 then
    let c0 := c.emit (Effect.write data)
    match wr with
    | .ok n =>
      let remaining := data.length - n
      if remaining == 0 && c0.writeCompleteCallback_ then
        { conn := c0.queueInLoop .writeCompleteCallback, rwrote := n, remaining := remaining
          faultError := false }
      else
        { conn := c0, rwrote := n, remaining := remaining, faultError := false }
    | .err errno =>
      if errno != EWOULDBLOCK then
        if errno == EPIPE || errno == ECONNRESET then
          { conn := c0, rwrote := 0, remaining := data.length, faultError := true }
        else
          { conn := c0, rwrote := 0, remaining := data.length, faultError := false }
      else
        { conn := c0, rwrote := 0, remaining := data.length, faultError := false }
  else
    { conn := c, rwrote := 0, remaining := data.length, faultError := false }

/-- The buffering block of `sendInLoop`. -/
def sendInLoopBuffer (l : SendLocals) (data : List Byte) : TcpConnection :=
  if !l.faultError && l.remaining > 0 then
    let oldLen := l.conn.outputBuffer_.readableBytes
    let c1 :=
      if oldLen + l.remaining > l.conn.highWaterMark_ && oldLen < l.conn.highWaterMark_
          && l.conn.highWaterMarkCallback_ then
        l.conn.queueInLoop (.highWaterMarkCallback (oldLen + l.remaining))
      else
        l.conn
    let c2 := { c1 with outputBuffer_ := c1.outputBuffer_.append (data.drop l.rwrote) }
    if !c2.channel_.isWriting then c2.channelUpdate Channel.enableWriting else c2
  else
    l.conn

def sendInLoop (c : TcpConnection) (data : List Byte) (wr : IoResult) : TcpConnection :=
  if c.state_ = .kDisConnected then c
  else sendInLoopBuffer (sendInLoopDirect c data wr) data

/-- `send(buf)`; `inLoopThread` is the value of `loop_->isInLoopThread()`. -/
def send (c : TcpConnection) (inLoopThread : Bool) (buf : List Byte) (wr : IoResult) :
    TcpConnection :=
  if c.state_ = .kConnected then
    if inLoopThread then c.sendInLoop buf wr else c
  else
    c.runInLoop inLoopThread (.sendInLoop buf) (fun c1 => c1.sendInLoop buf wr)

def shutdownInLoop (c : TcpConnection) : TcpConnection :=
  if !c.channel_.isWriting then c.emit Effect.shutdownWrite else c

def shutdown (c : TcpConnection) (inLoopThread : Bool) : TcpConnection :=
  if c.state_ = .kConnected then
    (c.setState .kDisConnecting).runInLoop inLoopThread .shutdownInLoop shutdownInLoop
  else c

def connectEstablished (c : TcpConnection) : TcpConnection :=
  let c1 := c.setState .kConnected
  let c2 := { c1 with channel_ := c1.channel_.tie }
  let c3 := c2.channelUpdate Channel.enableReading
  c3.emit (Effect.connectionCallback c3.state_)

def connectDestroyed (c : TcpConnection) : TcpConnection :=
  let c1 :=
    if c.state_ = .kConnected then
      let c2 := (c.setState .kDisConnected).channelUpdate Channel.disableAll
      c2.emit (Effect.connectionCallback c2.state_)
    else c
  c1.emit Effect.removeChannel

def handleClose (c : TcpConnection) : TcpConnection :=
  let c1 := (c.setState .kDisConnected).channelUpdate Channel.disableAll
  (c1.emit (Effect.connectionCallback c1.state_)).emit Effect.closeCallback

def handleError (c : TcpConnection) : TcpConnection := c.emit Effect.getsockopt

/-- `handleRead`; `rr` is the result of `inputBuffer_.readFd`. -/
def handleRead (c : TcpConnection) (rr : ReadResult) : TcpConnection :=
  let c1 := { c.emit Effect.readFd with inputBuffer_ := c.inputBuffer_.readFd rr }
  match rr with
  | .data bytes =>
    if bytes.length > 0 then c1.emit Effect.messageCallback
    else c1.handleClose
  | .err _ => c1.handleError

/-- `handleWrite`; `wr` is the result of `outputBuffer_.writeFd`, a single
write of the readable span that leaves the indices alone, and is looked at
only when the call is made. -/
def handleWrite (c : TcpConnection) (wr : IoResult) : TcpConnection :=
  if c.channel_.isWriting then
    let c0 := c.emit (Effect.writeFd c.outputBuffer_.peek)
    match wr with
    | .ok n =>
      if n > 0 then
        let c1 := { c0 with outputBuffer_ := c0.outputBuffer_.retrieve n }
        if c1.outputBuffer_.readableBytes == 0 then
          let c2 := c1.channelUpdate Channel.disableWriting
          let c3 := if c2.writeCompleteCallback_ then c2.queueInLoop .writeCompleteCallback else c2
          if c3.state_ = .kDisConnecting then c3.shutdownInLoop else c3
        else c1
      else c0
    | .err _ => c0
  else c

/-- The test that guards the direct-write block of `sendInLoop`: the
connection is not awaiting writable readiness and its output buffer is
empty. -/
def attemptsWrite (c : TcpConnection) : Bool :=
  !c.channel_.isWriting && c.outputBuffer_.readableBytes == 0

/-- The number of bytes the direct write of a `sendInLoop` call put on the
wire: the count it reported, and `0` when it was not attempted or failed. -/
def written (c : TcpConnection) : IoResult → Nat
  | .ok n => if c.attemptsWrite then n else 0
  | .err _ => 0

/-- The direct write of a `sendInLoop` call was attempted and failed with
`EPIPE` or `ECONNRESET`. -/
def faulted (c : TcpConnection) : IoResult → Bool
  | .ok _ => false
  | .err errno => c.attemptsWrite && (errno == EPIPE || errno == ECONNRESET)

/-- The condition the send path keeps: the output buffer is well formed and
write interest is enabled exactly when it holds readable bytes. -/
def Settled (c : TcpConnection) : Prop :=
  c.outputBuffer_.Inv ∧ (c.channel_.isWriting = true ↔ c.outputBuffer_.readableBytes ≠ 0)

/-- A freshly established connection: Connected, a well-formed output
buffer with nothing to read, write interest off.  The callbacks, the
high-water mark and the loop are whatever the owner has set. -/
def FreshlyEstablished (c : TcpConnection) : Prop :=
  c.state_ = .kConnected ∧ c.outputBuffer_.Inv ∧ c.outputBuffer_.readableBytes = 0 ∧
    c.channel_.isWriting = false

instance (c : TcpConnection) : Decidable c.FreshlyEstablished := by
  unfold FreshlyEstablished; infer_instance

/-- A connection right after the server has run `connectEstablished` on a
new one. -/
def established (fd : Int) : TcpConnection := (new fd).connectEstablished

/-- An established connection on which the owner has set the write-complete
and the high-water callback. -/
def establishedWithCallbacks : TcpConnection :=
  { established 5 with writeCompleteCallback_ := true, highWaterMarkCallback_ := true }

/-- The connection of the high-water scenario: mark 16, a high-water callback
set, and 10 bytes left pending by a `sendInLoop` whose direct write met a full
kernel buffer. -/
def nearHighWater : TcpConnection :=
  ({ established 5 with
      highWaterMark_ := 16, highWaterMarkCallback_ := true } : TcpConnection).sendInLoop
    (List.replicate 10 65) (IoResult.err EWOULDBLOCK)

/-- The number of half-closes of the write side performed so far. -/
def halfCloses (c : TcpConnection) : Nat := c.trace.count Effect.shutdownWrite

/-- One step of the send and shutdown paths of a connection. -/
inductive PathOp where
  | sendInLoop (data : List Byte) (wr : IoResult)
  | handleWrite (wr : IoResult)
  | shutdown (inLoopThread : Bool)
  | shutdownInLoop
  deriving DecidableEq, Repr

def pathStep (c : TcpConnection) : PathOp → TcpConnection
  | .sendInLoop data wr => c.sendInLoop data wr
  | .handleWrite wr => c.handleWrite wr
  | .shutdown inLoopThread => c.shutdown inLoopThread
  | .shutdownInLoop => c.shutdownInLoop

def pathRun (c : TcpConnection) : List PathOp → TcpConnection
  | [] => c
  | op :: ops => pathRun (c.pathStep op) ops

/-- The write results of a step respect the contract of `write(2)` in the
state the step starts from. -/
def pathStepOk (c : TcpConnection) : PathOp → Bool
  | .sendInLoop data wr => wr.within data.length
  | .handleWrite wr => wr.within c.outputBuffer_.readableBytes
  | _ => true

def pathRunOk (c : TcpConnection) : List PathOp → Bool
  | [] => true
  | op :: ops => c.pathStepOk op && pathRunOk (c.pathStep op) ops

/-- The output buffer holds readable bytes in the state a sequence of steps
starts from and after each of its steps. -/
def staysPending (c : TcpConnection) : List PathOp → Bool
  | [] => c.outputBuffer_.readableBytes != 0
  | op :: ops => c.outputBuffer_.readableBytes != 0 && staysPending (c.pathStep op) ops

/-- The operations of a connection, each with the values it obtains from
the operating system. -/
inductive ConnOp where
  | connectEstablished
  | connectDestroyed
  | send (inLoopThread : Bool) (buf : List Byte) (wr : IoResult)
  | sendInLoop (data : List Byte) (wr : IoResult)
  | shutdown (inLoopThread : Bool)
  | shutdownInLoop
  | handleRead (rr : ReadResult)
  | handleWrite (wr : IoResult)
  | handleClose
  | handleError
  deriving DecidableEq, Repr

def apply (c : TcpConnection) : ConnOp → TcpConnection
  | .connectEstablished => c.connectEstablished
  | .connectDestroyed => c.connectDestroyed
  | .send inLoopThread buf wr => c.send inLoopThread buf wr
  | .sendInLoop data wr => c.sendInLoop data wr
  | .shutdown inLoopThread => c.shutdown inLoopThread
  | .shutdownInLoop => c.shutdownInLoop
  | .handleRead rr => c.handleRead rr
  | .handleWrite wr => c.handleWrite wr
  | .handleClose => c.handleClose
  | .handleError => c.handleError

end TcpConnection

/-- Modelled from the spec: the bookkeeping the demultiplexer keeps for one
channel; the concrete poller is not part of the sources.  `new`: not in the
map; `added mask`: in the map, interest `mask` registered with the operating
system; `deleted`: still in the map, interest removed from the operating
system. -/
inductive Registration where
  | new
  | added (mask : Nat)
  | deleted
  deriving DecidableEq, Repr

namespace Registration

/-- Modelled from the spec: `update(channel)` of the demultiplexer.  A new
channel is added with its current interest mask; an added one has its mask
modified, or is marked deleted when the mask becomes empty.  The spec does not
describe `update` on a channel marked deleted; it is added again here. -/
def update (r : Registration) (event : Nat) : Registration :=
  match r with
  | .new => .added event
  | .added _ => if event = 0 then .deleted else .added event
  | .deleted => .added event

/-- Modelled from the spec: `remove(channel)` of the demultiplexer removes the
channel from the map and its interest from the operating system, if still
present. -/
def remove (_ : Registration) : Registration := .new

/-- The registration after the calls of a trace, oldest first. -/
def after (r : Registration) : List Effect → Registration
  | [] => r
  | .updateChannel event :: es => after (r.update event) es
  | .removeChannel :: es => after r.remove es
  | _ :: es => after r es

end Registration

namespace TcpConnection

/-- The registration of `channel_` with the poller of its loop: that of a
channel the poller has not seen, followed by the calls made so far. -/
def registration (c : TcpConnection) : Registration := Registration.new.after c.trace

/-- The number of invocations of the user connection callback so far. -/
def connectionCalls (c : TcpConnection) : Nat :=
  c.trace.countP (fun e => match e with
    | .connectionCallback _ => true
    | _ => false)

end TcpConnection

/-! ## Lemmas on `Buffer` -/

namespace Buffer

theorem length_vecResize (v : List Byte) (n : Nat) : (vecResize v n).length = n := by
  simp only [vecResize, List.length_append, List.length_take, List.length_replicate]
  omega

theorem length_copyWithin (n src dst : Nat) (v : List Byte) :
    (copyWithin n src dst v).length = v.length := by
  induction n generalizing src dst v with
  | zero => rfl
  | succ n ih => simp [copyWithin, ih]

theorem length_copyIn (data : List Byte) (dst : Nat) (v : List Byte) :
    (copyIn data dst v).length = v.length := by
  induction data generalizing dst v with
  | nil => rfl
  | cons x xs ih => simp [copyIn, ih]


theorem copyIn_eq (data : List Byte) (dst : Nat) (v : List Byte)
    (h : dst + data.length ≤ v.length) :
    copyIn data dst v = v.take dst ++ data ++ v.drop (dst + data.length) := by
  induction data generalizing dst v with
  | nil => simp [copyIn]
  | cons x xs ih =>
    have hlen : dst < v.length := by simp at h; omega
    have hlt : dst + 1 + xs.length ≤ (v.set dst x).length := by simp at h ⊢; omega
    rw [copyIn, ih (dst + 1) (v.set dst x) hlt]
    have h1 : (v.set dst x).take (dst + 1) = v.take dst ++ [x] := by
      rw [List.set_eq_take_cons_drop x hlen, List.take_append_eq_append_take]
      simp [List.length_take, Nat.min_eq_left (Nat.le_of_lt hlen)]
    have h2 : (v.set dst x).drop (dst + 1 + xs.length) = v.drop (dst + (x :: xs).length) := by
      rw [List.drop_set_of_lt x v (by omega)]
      simp only [List.length_cons]
      congr 1
      omega
    rw [h1, h2]
    simp

theorem copyWithin_eq (n src dst : Nat) (v : List Byte)
    (hds : dst ≤ src) (h : src + n ≤ v.length) :
    copyWithin n src dst v = v.take dst ++ (v.drop src).take n ++ v.drop (dst + n) := by
  induction n generalizing src dst v with
  | zero => simp [copyWithin]
  | succ n ih =>
    have hs : src < v.length := by omega
    have hd : dst < v.length := by omega
    have hlt : src + 1 + n ≤ (v.set dst (v.getD src 0)).length := by simp; omega
    rw [copyWithin, ih (src + 1) (dst + 1) _ (by omega) hlt, List.getD_eq_getElem v 0 hs]
    have h1 : (v.set dst v[src]).take (dst + 1) = v.take dst ++ [v[src]] := by
      rw [List.set_eq_take_cons_drop _ hd, List.take_append_eq_append_take]
      simp [List.length_take, Nat.min_eq_left (Nat.le_of_lt hd)]
    have h2 : (v.set dst v[src]).drop (src + 1) = v.drop (src + 1) :=
      List.drop_set_of_lt _ v (by omega)
    have h3 : (v.set dst v[src]).drop (dst + 1 + n) = v.drop (dst + (n + 1)) := by
      rw [List.drop_set_of_lt _ v (by omega)]
      congr 1
      omega
    have h4 : (v.drop src).take (n + 1) = v[src] :: (v.drop (src + 1)).take n := by
      rw [List.drop_eq_getElem_cons hs, List.take_succ_cons]
    rw [h1, h2, h3, h4]
    simp

theorem peek_eq (b : Buffer) (h : b.readerIndex_ ≤ b.writerIndex_) :
    b.peek = (b.buffer_.take b.writerIndex_).drop b.readerIndex_ := by
  unfold peek readableBytes
  rw [List.take_drop]
  congr 2
  omega

theorem length_peek (b : Buffer) (h : b.Inv) : b.peek.length = b.readableBytes := by
  obtain ⟨_, h2, h3⟩ := h
  simp only [peek, readableBytes, List.length_take, List.length_drop]
  omega

theorem inv_new (n : Nat) (h : kCheapPrepend + n < sizeRange) : (new n).Inv := by
  simp [Inv, new, Nat.mod_eq_of_lt h]

theorem inv_fresh : fresh.Inv := inv_new kInitialSize (by decide)

theorem inv_retrieveAll (b : Buffer) (h : b.Inv) : b.retrieveAll.Inv := by
  obtain ⟨h1, h2, h3⟩ := h
  simp only [Inv, retrieveAll]
  omega

theorem inv_retrieve (b : Buffer) (len : Nat) (h : b.Inv) : (b.retrieve len).Inv := by
  unfold retrieve
  split
  · rename_i hlt
    obtain ⟨h1, h2, h3⟩ := h
    simp only [Inv, readableBytes] at *
    omega
  · exact inv_retrieveAll b h

/-- After `ensureWritableBytes(len)` the invariant holds, there is room for
`len` bytes, and the readable bytes are the same. -/
theorem ensureWritableBytes_spec (b : Buffer) (len : Nat) (h : b.Inv) :
    (b.ensureWritableBytes len).Inv ∧ len ≤ (b.ensureWritableBytes len).writableBytes ∧
      (b.ensureWritableBytes len).peek = b.peek := by
  obtain ⟨h1, h2, h3⟩ := h
  unfold ensureWritableBytes
  split
  · rename_i hw
    unfold makeSpace
    simp only [writableBytes, prependableBytes, readableBytes, kCheapPrepend] at *
    split
    · rename_i hg
      refine ⟨?_, ?_, ?_⟩
      · simp only [Inv, kCheapPrepend, length_vecResize]; omega
      · simp only [length_vecResize]; omega
      · rw [peek_eq _ (by simpa using h2), peek_eq b h2]
        simp only [vecResize]
        rw [List.take_append_of_le_length (by simp only [List.length_take]; omega),
          List.take_take, Nat.min_eq_left (by omega)]
    · rename_i hg
      refine ⟨?_, ?_, ?_⟩
      · simp only [Inv, kCheapPrepend, length_copyWithin]; omega
      · simp only [length_copyWithin]; omega
      · rw [peek_eq _ (by simp), peek_eq b h2]
        simp only
        rw [copyWithin_eq _ _ _ _ h1 (by omega)]
        have hA : (List.take 8 b.buffer_).length = 8 := by
          rw [List.length_take]; omega
        have hB : (List.take (b.writerIndex_ - b.readerIndex_)
            (List.drop b.readerIndex_ b.buffer_)).length = b.writerIndex_ - b.readerIndex_ := by
          rw [List.length_take, List.length_drop]; omega
        rw [List.take_append_of_le_length (by rw [List.length_append, hA, hB]),
          List.take_of_length_le (by rw [List.length_append, hA, hB]),
          List.drop_append_of_le_length (by omega), List.drop_of_length_le (by omega),
          List.nil_append, List.take_drop]
        congr 2
        omega
  · rename_i hw
    refine ⟨⟨h1, h2, h3⟩, by omega, rfl⟩

/-- What `append` does to a well-formed buffer. -/
theorem append_spec (b : Buffer) (data : List Byte) (h : b.Inv) :
    (b.append data).Inv ∧ (b.append data).peek = b.peek ++ data ∧
      (b.append data).readableBytes = b.readableBytes + data.length := by
  obtain ⟨⟨h1, h2, h3⟩, hroom, hpeek⟩ := ensureWritableBytes_spec b data.length h
  unfold append
  generalize b.ensureWritableBytes data.length = b1 at *
  simp only [writableBytes] at hroom
  have hfit : b1.writerIndex_ + data.length ≤ b1.buffer_.length := by omega
  have hrd : b.readableBytes = b1.readableBytes := by
    rw [← length_peek b h, ← length_peek b1 ⟨h1, h2, h3⟩, hpeek]
  refine ⟨?_, ?_, ?_⟩
  · simp only [Inv, length_copyIn]
    omega
  · rw [peek_eq _ (by simp only; omega), ← hpeek, peek_eq b1 h2]
    simp only
    rw [copyIn_eq data _ _ hfit]
    have hA : (List.take b1.writerIndex_ b1.buffer_).length = b1.writerIndex_ := by
      rw [List.length_take]; omega
    rw [List.take_append_of_le_length (by rw [List.length_append, hA]),
      List.take_of_length_le (by rw [List.length_append, hA]),
      List.drop_append_of_le_length (by omega)]
  · simp only [readableBytes] at *
    omega

theorem inv_append (b : Buffer) (data : List Byte) (h : b.Inv) : (b.append data).Inv :=
  (append_spec b data h).1

theorem peek_append (b : Buffer) (data : List Byte) (h : b.Inv) :
    (b.append data).peek = b.peek ++ data :=
  (append_spec b data h).2.1

theorem readableBytes_append (b : Buffer) (data : List Byte) (h : b.Inv) :
    (b.append data).readableBytes = b.readableBytes + data.length :=
  (append_spec b data h).2.2

theorem peek_retrieve (b : Buffer) (len : Nat) (h : b.Inv) (hlen : len ≤ b.readableBytes) :
    (b.retrieve len).peek = b.peek.drop len := by
  obtain ⟨h1, h2, h3⟩ := h
  unfold retrieve
  split
  · rename_i hlt
    simp only [readableBytes] at hlt hlen
    rw [peek_eq _ (by simp only; omega), peek_eq b h2]
    simp only [List.drop_drop]
  · rename_i hge
    have hl : b.peek.length = b.readableBytes := length_peek b ⟨h1, h2, h3⟩
    rw [List.drop_of_length_le (by omega)]
    simp [peek, retrieveAll, readableBytes]

theorem readableBytes_retrieve (b : Buffer) (len : Nat) :
    (b.retrieve len).readableBytes = b.readableBytes - len := by
  unfold retrieve
  split
  · simp only [readableBytes]; omega
  · simp only [retrieveAll, readableBytes] at *; omega

theorem inv_step (b : Buffer) (op : Op) (h : b.Inv) : (b.step op).Inv := by
  cases op with
  | append data => exact inv_append b data h
  | retrieve len => exact inv_retrieve b len h
  | retrieveAll => exact inv_retrieveAll b h
  | retrieveAsString len => exact inv_retrieve b len h
  | retreiveAllAsString => exact inv_retrieve b _ h

theorem inv_run (b : Buffer) (ops : List Op) (h : b.Inv) : (b.run ops).Inv := by
  induction ops generalizing b with
  | nil => exact h
  | cons op ops ih => exact ih _ (inv_step b op h)

theorem peek_run (b : Buffer) (ops : List Op) (h : b.Inv) (ha : admissible b ops = true) :
    (b.run ops).peek = (b.peek ++ appended ops).drop (retrieved ops) := by
  induction ops generalizing b with
  | nil => simp [run, appended, retrieved]
  | cons op ops ih =>
    cases op with
    | append data =>
      simp only [admissible] at ha
      rw [run, step, ih _ (inv_append b data h) ha, peek_append b data h]
      simp [appended, retrieved]
    | retrieve len =>
      simp only [admissible, Bool.and_eq_true, decide_eq_true_eq] at ha
      rw [run, step, ih _ (inv_retrieve b len h) ha.2, peek_retrieve b len h ha.1]
      have hl : len ≤ b.peek.length := by rw [length_peek b h]; exact ha.1
      simp only [appended, retrieved]
      rw [← List.drop_append_of_le_length hl, List.drop_drop]
    | retrieveAll => simp [admissible] at ha
    | retrieveAsString len => simp [admissible] at ha
    | retreiveAllAsString => simp [admissible] at ha

end Buffer

namespace Channel

theorem and_two_pow_ne_zero (n k : Nat) : (n &&& 2 ^ k != 0) = n.testBit k := by
  rw [Nat.and_two_pow]
  cases n.testBit k <;> simp

theorem and_three_ne_zero (n : Nat) : (n &&& 3 != 0) = (n.testBit 0 || n.testBit 1) := by
  have h : n &&& 3 = n % 4 := Nat.and_pow_two_sub_one_eq_mod n 2
  rw [h, Nat.testBit_to_div_mod, Nat.testBit_to_div_mod]
  rw [Bool.eq_iff_iff]
  simp only [bne_iff_ne, ne_eq, Bool.or_eq_true, decide_eq_true_eq, pow_zero, Nat.div_one, pow_one]
  omega

end Channel

/-! ## Lemmas on `TcpConnection` -/

namespace TcpConnection

theorem isWriting_enableWriting (ch : Channel) : ch.enableWriting.isWriting = true := by
  have h : (ch.event_ ||| 4) &&& 4 = 4 := by
    apply Nat.eq_of_testBit_eq
    intro i
    simp only [Nat.testBit_and, Nat.testBit_or]
    cases Nat.testBit 4 i <;> simp
  simp only [Channel.isWriting, Channel.enableWriting, Channel.kWriteEvent, EPOLLOUT]
  rw [h]
  rfl

theorem isWriting_disableWriting (ch : Channel) : ch.disableWriting.isWriting = false := by
  have h : (ch.event_ &&& bitNot32 4) &&& 4 = 0 := by
    rw [Nat.and_assoc]
    have : bitNot32 4 &&& 4 = 0 := by decide
    rw [this]
    simp
  simp only [Channel.isWriting, Channel.disableWriting, Channel.kWriteEvent, EPOLLOUT]
  rw [h]
  rfl

theorem direct_conn (c : TcpConnection) (data : List Byte) (wr : IoResult) :
    (sendInLoopDirect c data wr).conn.outputBuffer_ = c.outputBuffer_ ∧
    (sendInLoopDirect c data wr).conn.channel_ = c.channel_ ∧
    (sendInLoopDirect c data wr).conn.state_ = c.state_ ∧
    (sendInLoopDirect c data wr).conn.highWaterMark_ = c.highWaterMark_ ∧
    (sendInLoopDirect c data wr).conn.highWaterMarkCallback_ = c.highWaterMarkCallback_ := by
  unfold sendInLoopDirect
  split
  · cases wr with
    | ok n => simp only; split <;> simp [emit, TcpConnection.queueInLoop]
    | err e => simp only; split <;> [split; skip] <;> simp [emit]
  · simp

theorem direct_locals (c : TcpConnection) (data : List Byte) (wr : IoResult) :
    (sendInLoopDirect c data wr).rwrote = c.written wr ∧
    (sendInLoopDirect c data wr).remaining = data.length - c.written wr ∧
    (sendInLoopDirect c data wr).faultError = c.faulted wr := by
  unfold sendInLoopDirect
  split
  · rename_i h
    have h1 : c.attemptsWrite = true := h
    cases wr with
    | ok n => simp only [written, faulted, h1, if_true]; split <;> simp
    | err e =>
      simp only [written, faulted, h1, Bool.true_and]
      by_cases he : e = EWOULDBLOCK
      · subst he
        simp [EWOULDBLOCK, EPIPE, ECONNRESET]
      · simp only [bne_iff_ne, ne_eq, he, not_false_eq_true, if_true]
        split <;> simp_all
  · rename_i h
    have h1 : c.attemptsWrite = false := by simpa [attemptsWrite] using h
    cases wr <;> simp [written, faulted, h1]

theorem buffer_locals (l : SendLocals) (data : List Byte) :
    (sendInLoopBuffer l data).outputBuffer_
      = (if !l.faultError && l.remaining > 0 then
          l.conn.outputBuffer_.append (data.drop l.rwrote)
        else l.conn.outputBuffer_) ∧
    (sendInLoopBuffer l data).channel_.isWriting
      = (if !l.faultError && l.remaining > 0 then true else l.conn.channel_.isWriting) ∧
    (sendInLoopBuffer l data).state_ = l.conn.state_ := by
  unfold sendInLoopBuffer
  by_cases hr : (!l.faultError && decide (l.remaining > 0)) = true
  · simp only [hr, if_true]
    split <;> split <;> simp_all [channelUpdate, TcpConnection.queueInLoop, isWriting_enableWriting]
  · simp only [hr]
    simp

theorem written_le (c : TcpConnection) (data : List Byte) (wr : IoResult)
    (hwr : wr.within data.length = true) : c.written wr ≤ data.length := by
  cases wr with
  | ok n =>
    simp only [IoResult.within, decide_eq_true_eq] at hwr
    simp only [written]
    split <;> omega
  | err e => simp [written]

/-- What `sendInLoop` leaves in the output buffer and the interest mask of
a connection that is not DisConnected. -/
theorem sendInLoop_spec (c : TcpConnection) (data : List Byte) (wr : IoResult)
    (hstate : c.state_ ≠ .kDisConnected) :
    (c.sendInLoop data wr).outputBuffer_
      = (if !c.faulted wr && data.length - c.written wr > 0 then
          c.outputBuffer_.append (data.drop (c.written wr))
        else c.outputBuffer_) ∧
    (c.sendInLoop data wr).channel_.isWriting
      = (if !c.faulted wr && data.length - c.written wr > 0 then true
          else c.channel_.isWriting) ∧
    (c.sendInLoop data wr).state_ = c.state_ := by
  obtain ⟨h1, h2, h3⟩ := direct_locals c data wr
  obtain ⟨g1, g2, g3, _, _⟩ := direct_conn c data wr
  obtain ⟨k1, k2, k3⟩ := buffer_locals (sendInLoopDirect c data wr) data
  unfold sendInLoop
  rw [if_neg hstate, k1, k2, k3, h1, h2, h3, g1, g2, g3]
  exact ⟨rfl, rfl, rfl⟩

theorem halfCloses_emit (c : TcpConnection) (e : Effect) :
    (c.emit e).halfCloses = c.halfCloses + (if e = Effect.shutdownWrite then 1 else 0) := by
  simp only [halfCloses, emit, List.count_append, List.count_singleton, beq_iff_eq]

theorem shutdownInLoop_spec (c : TcpConnection) :
    c.shutdownInLoop.outputBuffer_ = c.outputBuffer_ ∧
    c.shutdownInLoop.channel_ = c.channel_ ∧
    c.shutdownInLoop.state_ = c.state_ ∧
    c.shutdownInLoop.halfCloses = c.halfCloses + (if c.channel_.isWriting then 0 else 1) := by
  unfold shutdownInLoop
  cases h : c.channel_.isWriting
  · simp [halfCloses, emit]
  · simp

theorem shutdown_spec (c : TcpConnection) (t : Bool) :
    (c.shutdown t).outputBuffer_ = c.outputBuffer_ ∧
    (c.shutdown t).channel_ = c.channel_ ∧
    (c.shutdown t).state_ = (if c.state_ = .kConnected then .kDisConnecting else c.state_) ∧
    (c.shutdown t).halfCloses
      = c.halfCloses + (if c.state_ = .kConnected ∧ t = true ∧ c.channel_.isWriting = false
          then 1 else 0) := by
  unfold shutdown
  by_cases hs : c.state_ = .kConnected
  · obtain ⟨h1, h2, h3, h4⟩ := shutdownInLoop_spec (c.setState .kDisConnecting)
    cases t
    · simp [hs, runInLoop, setState, halfCloses]
    · simp only [hs, runInLoop, if_true, h1, h2, h3, h4]
      cases hw : c.channel_.isWriting <;> simp [setState, halfCloses, hw]
  · simp [hs]

theorem handleWrite_idle (c : TcpConnection) (wr : IoResult)
    (h : c.channel_.isWriting = false) : c.handleWrite wr = c := by
  simp [handleWrite, h]

theorem handleWrite_spec (c : TcpConnection) (wr : IoResult)
    (h : c.channel_.isWriting = true) :
    (c.handleWrite wr).state_ = c.state_ ∧
    (c.handleWrite wr).outputBuffer_
      = (match wr with
          | .ok n => if n > 0 then c.outputBuffer_.retrieve n else c.outputBuffer_
          | .err _ => c.outputBuffer_) ∧
    (c.handleWrite wr).channel_.isWriting
      = (match wr with
          | .ok n => decide (¬ (n > 0 ∧ (c.outputBuffer_.retrieve n).readableBytes = 0))
          | .err _ => true) ∧
    (c.handleWrite wr).halfCloses
      = c.halfCloses + (match wr with
          | .ok n => if n > 0 ∧ (c.outputBuffer_.retrieve n).readableBytes = 0
              ∧ c.state_ = .kDisConnecting then 1 else 0
          | .err _ => 0) := by
  unfold handleWrite
  rw [if_pos h]
  cases wr with
  | err e => simp [emit, h, halfCloses]
  | ok n =>
    by_cases hn : n > 0
    · by_cases hz : (c.outputBuffer_.retrieve n).readableBytes = 0
      · by_cases hd : c.state_ = .kDisConnecting
        · simp [hn, hz, hd, emit, channelUpdate, TcpConnection.queueInLoop, shutdownInLoop,
            isWriting_disableWriting, halfCloses]
          split <;> simp [isWriting_disableWriting]
        · simp [hn, hz, hd, emit, channelUpdate, TcpConnection.queueInLoop,
            isWriting_disableWriting, halfCloses]
          split <;> simp [isWriting_disableWriting]
      · simp [hn, hz, emit, h, halfCloses]
    · simp [hn, emit, h, halfCloses]

theorem halfCloses_direct (c : TcpConnection) (data : List Byte) (wr : IoResult) :
    (sendInLoopDirect c data wr).conn.halfCloses = c.halfCloses := by
  unfold sendInLoopDirect
  split
  · cases wr with
    | ok n => simp only; split <;> simp [emit, TcpConnection.queueInLoop, halfCloses]
    | err e => simp only; split <;> [split; skip] <;> simp [emit, halfCloses]
  · rfl

theorem halfCloses_buffer (l : SendLocals) (data : List Byte) :
    (sendInLoopBuffer l data).halfCloses = l.conn.halfCloses := by
  unfold sendInLoopBuffer
  split
  · simp only
    split <;> split <;> simp [channelUpdate, TcpConnection.queueInLoop, halfCloses]
  · rfl

theorem halfCloses_sendInLoop (c : TcpConnection) (data : List Byte) (wr : IoResult) :
    (c.sendInLoop data wr).halfCloses = c.halfCloses := by
  unfold sendInLoop
  split
  · rfl
  · rw [halfCloses_buffer, halfCloses_direct]

theorem settled_sendInLoop (c : TcpConnection) (data : List Byte) (wr : IoResult)
    (h : c.Settled) : (c.sendInLoop data wr).Settled := by
  obtain ⟨hinv, hiff⟩ := h
  by_cases hstate : c.state_ = .kDisConnected
  · unfold sendInLoop
    rw [if_pos hstate]
    exact ⟨hinv, hiff⟩
  · obtain ⟨h1, h2, _⟩ := sendInLoop_spec c data wr hstate
    unfold Settled
    rw [h1, h2]
    by_cases hr : (!c.faulted wr && decide (data.length - c.written wr > 0)) = true
    · simp only [hr, if_true, Buffer.readableBytes_append _ _ hinv, List.length_drop]
      simp only [Bool.and_eq_true, decide_eq_true_eq] at hr
      refine ⟨Buffer.inv_append _ _ hinv, ?_⟩
      simp only [true_iff]
      omega
    · simp only [hr]
      exact ⟨hinv, hiff⟩

theorem settled_handleWrite (c : TcpConnection) (wr : IoResult)
    (h : c.Settled) : (c.handleWrite wr).Settled := by
  obtain ⟨hinv, hiff⟩ := h
  cases hw : c.channel_.isWriting
  · rw [handleWrite_idle c wr hw]
    exact ⟨hinv, hiff⟩
  · obtain ⟨_, h2, h3, _⟩ := handleWrite_spec c wr hw
    unfold Settled
    rw [h2, h3]
    have hne := hiff.1 hw
    cases wr with
    | err e => exact ⟨hinv, by simpa using hne⟩
    | ok n =>
      by_cases hn : n > 0
      · simp only [hn, if_true, true_and, decide_not, Bool.not_eq_true', decide_eq_false_iff_not]
        exact ⟨Buffer.inv_retrieve _ _ hinv, trivial⟩
      · simp only [hn, if_false, false_and, not_false_eq_true, decide_True]
        exact ⟨hinv, by simpa using hne⟩

theorem settled_pathStep (c : TcpConnection) (op : PathOp) (h : c.Settled) :
    (c.pathStep op).Settled := by
  cases op with
  | sendInLoop data wr => exact settled_sendInLoop c data wr h
  | handleWrite wr => exact settled_handleWrite c wr h
  | shutdown t =>
    obtain ⟨h1, h2, _, _⟩ := shutdown_spec c t
    simp only [pathStep, Settled, h1, h2]
    exact h
  | shutdownInLoop =>
    obtain ⟨h1, h2, _, _⟩ := shutdownInLoop_spec c
    simp only [pathStep, Settled, h1, h2]
    exact h

theorem settled_pathRun (c : TcpConnection) (ops : List PathOp) (h : c.Settled) :
    (c.pathRun ops).Settled := by
  induction ops generalizing c with
  | nil => exact h
  | cons op ops ih => exact ih _ (settled_pathStep c op h)

theorem settled_of_freshlyEstablished (c : TcpConnection) (h : c.FreshlyEstablished) :
    c.Settled := by
  obtain ⟨_, hinv, hr, hw⟩ := h
  exact ⟨hinv, by simp [hr, hw]⟩

/-- A step that half-closes the socket leaves no readable byte behind. -/
theorem halfClose_step (s : TcpConnection) (op : PathOp) (hs : s.Settled)
    (hne : (s.pathStep op).halfCloses ≠ s.halfCloses) :
    (s.pathStep op).outputBuffer_.readableBytes = 0 := by
  obtain ⟨hinv, hiff⟩ := hs
  cases op with
  | sendInLoop data wr => exact absurd (halfCloses_sendInLoop s data wr) hne
  | handleWrite wr =>
    cases hw : s.channel_.isWriting
    · simp only [pathStep, handleWrite_idle s wr hw] at hne
      exact absurd rfl hne
    · obtain ⟨_, h2, _, h4⟩ := handleWrite_spec s wr hw
      simp only [pathStep] at hne ⊢
      rw [h4] at hne
      rw [h2]
      cases wr with
      | err e => simp at hne
      | ok n =>
        simp only at hne ⊢
        by_cases hc : n > 0 ∧ (s.outputBuffer_.retrieve n).readableBytes = 0
            ∧ s.state_ = .kDisConnecting
        · simp only [hc.1, if_true]
          exact hc.2.1
        · simp [hc] at hne
  | shutdown t =>
    obtain ⟨h1, _, _, h4⟩ := shutdown_spec s t
    simp only [pathStep] at hne ⊢
    rw [h4] at hne
    rw [h1]
    by_cases hc : s.state_ = .kConnected ∧ t = true ∧ s.channel_.isWriting = false
    · by_contra hr
      have := hiff.2 hr
      simp [hc.2.2] at this
    · simp [hc] at hne
  | shutdownInLoop =>
    obtain ⟨h1, _, _, h4⟩ := shutdownInLoop_spec s
    simp only [pathStep] at hne ⊢
    rw [h4] at hne
    rw [h1]
    cases hw : s.channel_.isWriting
    · by_contra hr
      have := hiff.2 hr
      simp [hw] at this
    · simp [hw] at hne

/-- The steps of the send and shutdown paths do not leave DisConnecting. -/
theorem disconnecting_pathStep (s : TcpConnection) (op : PathOp)
    (h : s.state_ = .kDisConnecting) : (s.pathStep op).state_ = .kDisConnecting := by
  cases op with
  | sendInLoop data wr =>
    rw [pathStep, (sendInLoop_spec s data wr (by rw [h]; decide)).2.2, h]
  | handleWrite wr =>
    cases hw : s.channel_.isWriting
    · rw [pathStep, handleWrite_idle s wr hw, h]
    · rw [pathStep, (handleWrite_spec s wr hw).1, h]
  | shutdown t =>
    rw [pathStep, (shutdown_spec s t).2.2.1, h]
    simp
  | shutdownInLoop =>
    rw [pathStep, (shutdownInLoop_spec s).2.2.1, h]

theorem disconnecting_pathRun (s : TcpConnection) (ops : List PathOp)
    (h : s.state_ = .kDisConnecting) : (s.pathRun ops).state_ = .kDisConnecting := by
  induction ops generalizing s with
  | nil => exact h
  | cons op ops ih => exact ih _ (disconnecting_pathStep s op h)

theorem staysPending_head (s : TcpConnection) (ops : List PathOp)
    (h : s.staysPending ops = true) : s.outputBuffer_.readableBytes ≠ 0 := by
  cases ops with
  | nil => simpa [staysPending] using h
  | cons op ops =>
    simp only [staysPending, Bool.and_eq_true, bne_iff_ne, ne_eq] at h
    exact h.1

/-- While the output buffer stays non-empty no half-close is performed. -/
theorem staysPending_pathRun (s : TcpConnection) (ops : List PathOp) (hs : s.Settled)
    (h : s.staysPending ops = true) :
    (s.pathRun ops).halfCloses = s.halfCloses ∧
      (s.pathRun ops).outputBuffer_.readableBytes ≠ 0 := by
  induction ops generalizing s with
  | nil => exact ⟨rfl, staysPending_head s [] h⟩
  | cons op ops ih =>
    have h' : (s.pathStep op).staysPending ops = true := by
      simp only [staysPending, Bool.and_eq_true] at h
      exact h.2
    have hne := staysPending_head _ ops h'
    have hsame : (s.pathStep op).halfCloses = s.halfCloses := by
      by_contra hc
      exact hne (halfClose_step s op hs hc)
    obtain ⟨i1, i2⟩ := ih (s.pathStep op) (settled_pathStep s op hs) h'
    exact ⟨by rw [pathRun, i1, hsame], i2⟩

/-- In DisConnecting with output pending, `handleWrite` half-closes exactly
when it drains the output buffer. -/
theorem handleWrite_drain (s : TcpConnection) (wr : IoResult) (hs : s.Settled)
    (hst : s.state_ = .kDisConnecting) (hne : s.outputBuffer_.readableBytes ≠ 0) :
    (s.handleWrite wr).halfCloses
      = s.halfCloses + (if (s.handleWrite wr).outputBuffer_.readableBytes = 0 then 1 else 0) := by
  have hw := hs.2.2 hne
  obtain ⟨_, h2, _, h4⟩ := handleWrite_spec s wr hw
  rw [h2, h4]
  cases wr with
  | err e => simp [hne]
  | ok n =>
    by_cases hn : n > 0
    · simp [hn, hst]
    · simp [hn, hne]

theorem settled_established (fd : Int) : (established fd).Settled := by
  refine ⟨Buffer.inv_fresh, ?_⟩
  simp [established, connectEstablished, emit, channelUpdate, setState, new, Channel.isWriting,
    Channel.enableReading, Channel.tie, Channel.new, Channel.kReadEvent, Channel.kWriteEvent,
    EPOLLIN, EPOLLPRI, EPOLLOUT, Buffer.fresh, Buffer.new, Buffer.readableBytes]
  decide


end TcpConnection

/-! ## Lemmas on `EventLoop` -/

namespace EventLoop

theorem queueAll_draining {φ : Type} (gs : List φ) (l : EventLoop φ)
    (h : l.callingPendingFunctors_ = true) :
    (gs.foldl (fun l1 g => l1.queueInLoop true g) l).pendingFunctors_
        = l.pendingFunctors_ ++ gs ∧
      (gs.foldl (fun l1 g => l1.queueInLoop true g) l).wakeups = l.wakeups + gs.length ∧
      (gs.foldl (fun l1 g => l1.queueInLoop true g) l).callingPendingFunctors_ = true := by
  induction gs generalizing l with
  | nil => simp [h]
  | cons g gs ih =>
    have hq : (l.queueInLoop true g).callingPendingFunctors_ = true := by
      simp [queueInLoop, h]
    obtain ⟨h1, h2, h3⟩ := ih (l.queueInLoop true g) hq
    rw [List.foldl_cons, h1, h2, h3]
    simp [queueInLoop, h]
    omega

theorem drain_loop {φ : Type} (spawn : φ → List φ) (functors : List φ) (l : EventLoop φ)
    (invoked : List φ) (h : l.callingPendingFunctors_ = true) :
    (functors.foldl
        (fun (acc : EventLoop φ × List φ) functor =>
          (invoke spawn acc.1 functor, acc.2 ++ [functor]))
        (l, invoked)).2 = invoked ++ functors ∧
      (functors.foldl
        (fun (acc : EventLoop φ × List φ) functor =>
          (invoke spawn acc.1 functor, acc.2 ++ [functor]))
        (l, invoked)).1.pendingFunctors_ = l.pendingFunctors_ ++ functors.flatMap spawn ∧
      (functors.foldl
        (fun (acc : EventLoop φ × List φ) functor =>
          (invoke spawn acc.1 functor, acc.2 ++ [functor]))
        (l, invoked)).1.wakeups = l.wakeups + (functors.flatMap spawn).length := by
  induction functors generalizing l invoked with
  | nil => simp
  | cons f fs ih =>
    obtain ⟨q1, q2, q3⟩ := queueAll_draining (spawn f) l h
    obtain ⟨h1, h2, h3⟩ := ih (invoke spawn l f) (invoked ++ [f]) q3
    rw [List.foldl_cons, h1, h2, h3]
    simp only [invoke, q1, q2, List.flatMap_cons, List.append_assoc, List.length_append,
      List.singleton_append, true_and]
    omega

end EventLoop

/-! ## Lemmas on the teardown and fault paths -/

namespace Registration

theorem after_append (r : Registration) (es es' : List Effect) :
    r.after (es ++ es') = (r.after es).after es' := by
  induction es generalizing r with
  | nil => rfl
  | cons e es ih => cases e <;> simp [after, ih]

end Registration

namespace TcpConnection

theorem registration_emit_removeChannel (c : TcpConnection) :
    (c.emit Effect.removeChannel).registration = Registration.new := by
  simp [registration, emit, Registration.after_append, Registration.after, Registration.remove]

theorem connectionCalls_emit_removeChannel (c : TcpConnection) :
    (c.emit Effect.removeChannel).connectionCalls = c.connectionCalls := by
  simp [connectionCalls, emit, List.countP_append]

theorem connectDestroyed_idle (c : TcpConnection) (h : c.state_ ≠ .kConnected) :
    c.connectDestroyed = c.emit Effect.removeChannel := by
  simp [connectDestroyed, h]

theorem connectDestroyed_connected (c : TcpConnection) (h : c.state_ = .kConnected) :
    c.connectDestroyed
      = ((((c.setState .kDisConnected).channelUpdate Channel.disableAll).emit
          (Effect.connectionCallback .kDisConnected)).emit Effect.removeChannel) := by
  simp [connectDestroyed, h, setState, channelUpdate]

theorem connectDestroyed_state_ne (c : TcpConnection) :
    c.connectDestroyed.state_ ≠ .kConnected := by
  by_cases h : c.state_ = .kConnected
  · rw [connectDestroyed_connected c h]
    simp [emit, channelUpdate, setState]
  · rw [connectDestroyed_idle c h]
    exact h

theorem sendInLoop_fault (c : TcpConnection) (data : List Byte) (errno : Nat)
    (hstate : c.state_ ≠ .kDisConnected) (ha : c.attemptsWrite = true)
    (he : errno = EPIPE ∨ errno = ECONNRESET) :
    c.sendInLoop data (.err errno) = c.emit (Effect.write data) := by
  have ha1 : (!c.channel_.isWriting && c.outputBuffer_.readableBytes == 0) = true := ha
  have hne : (errno != EWOULDBLOCK) = true := by
    rcases he with he | he <;> subst he <;> decide
  have hf : (errno == EPIPE || errno == ECONNRESET) = true := by
    rcases he with he | he <;> subst he <;> decide
  unfold sendInLoop
  rw [if_neg hstate]
  unfold sendInLoopDirect
  rw [if_pos ha1]
  simp only [hne, hf, if_true]
  simp [sendInLoopBuffer]

end TcpConnection

/-! ## The claims -/

/-- C1: on every buffer reached from a freshly constructed one (its size
`kCheapPrepend + initialSize` representable in `size_t`) by a sequence of
`append`, `retrieve`, `retrieveAll`, `retrieveAsString` and
`retreiveAllAsString` calls, `0 <= readerIndex <= writerIndex <= capacity`
holds and the prependable, readable and writable byte counts add up to the
capacity.  The sequence is arbitrary, so this holds after every call. -/
theorem buffer_indices_invariant (initialSize : Nat) (ops : List Buffer.Op)
    (hsize : Buffer.kCheapPrepend + initialSize < Buffer.sizeRange) :
    0 ≤ ((Buffer.new initialSize).run ops).readerIndex_ ∧
    ((Buffer.new initialSize).run ops).readerIndex_ ≤ ((Buffer.new initialSize).run ops).writerIndex_ ∧
    ((Buffer.new initialSize).run ops).writerIndex_ ≤ ((Buffer.new initialSize).run ops).capacity ∧
    ((Buffer.new initialSize).run ops).prependableBytes + ((Buffer.new initialSize).run ops).readableBytes
      + ((Buffer.new initialSize).run ops).writableBytes = ((Buffer.new initialSize).run ops).capacity := by
  obtain ⟨_, h2, h3⟩ := Buffer.inv_run _ ops (Buffer.inv_new initialSize hsize)
  simp only [Buffer.capacity, Buffer.prependableBytes, Buffer.readableBytes, Buffer.writableBytes]
  omega

/-- Witness of C1: a four-byte buffer that is filled, partly read, compacted
by the next `append`, drained into a string and grown by the last `append`. -/
theorem buffer_indices_invariant_witness :
    ((Buffer.new 4).run
        [.append [1, 2, 3], .retrieve 2, .append [4, 5, 6], .retrieveAsString 9,
          .append [7, 8, 9, 10, 11]]).readerIndex_
      ≤ ((Buffer.new 4).run
        [.append [1, 2, 3], .retrieve 2, .append [4, 5, 6], .retrieveAsString 9,
          .append [7, 8, 9, 10, 11]]).writerIndex_ ∧
    ((Buffer.new 4).run
        [.append [1, 2, 3], .retrieve 2, .append [4, 5, 6], .retrieveAsString 9,
          .append [7, 8, 9, 10, 11]]).writerIndex_
      ≤ ((Buffer.new 4).run
        [.append [1, 2, 3], .retrieve 2, .append [4, 5, 6], .retrieveAsString 9,
          .append [7, 8, 9, 10, 11]]).capacity :=
  have h := buffer_indices_invariant 4
    [.append [1, 2, 3], .retrieve 2, .append [4, 5, 6], .retrieveAsString 9,
      .append [7, 8, 9, 10, 11]] (by decide)
  ⟨h.2.1, h.2.2.1⟩

/-- C2: after a sequence of `append` and `retrieve` calls on a fresh buffer
(its size `kCheapPrepend + initialSize` representable in `size_t`), each
`retrieve(k)` with `k` at most the readable count at that moment, the readable
span is the concatenation of the appended byte strings in call order without
its first (sum of the `k`) bytes; and the space-making step of a following
`append` of `len` bytes (compaction or growth) leaves the readable span as it
is, `len` being such that the vector size and `writerIndex_ + len` are
representable in `size_t`. -/
theorem buffer_readable_is_fifo (initialSize : Nat) (ops : List Buffer.Op)
    (hsize : Buffer.kCheapPrepend + initialSize < Buffer.sizeRange)
    (h : Buffer.admissible (Buffer.new initialSize) ops = true) :
    ((Buffer.new initialSize).run ops).peek
        = (Buffer.appended ops).drop (Buffer.retrieved ops) ∧
      ∀ len, ((Buffer.new initialSize).run ops).capacity < Buffer.sizeRange →
        ((Buffer.new initialSize).run ops).writerIndex_ + len < Buffer.sizeRange →
        (((Buffer.new initialSize).run ops).ensureWritableBytes len).peek
          = ((Buffer.new initialSize).run ops).peek := by
  have hp := Buffer.peek_run _ ops (Buffer.inv_new initialSize hsize) h
  have h0 : (Buffer.new initialSize).peek = [] := by
    simp [Buffer.peek, Buffer.new, Buffer.readableBytes]
  refine ⟨by rw [hp, h0, List.nil_append], fun len _ _ => ?_⟩
  exact (Buffer.ensureWritableBytes_spec _ len
    (Buffer.inv_run _ ops (Buffer.inv_new initialSize hsize))).2.2

/-- Witness of C2: a run that compacts (third call) and then grows (fourth
call) the vector. -/
theorem buffer_readable_is_fifo_witness :
    Buffer.admissible (Buffer.new 4)
        [.append [1, 2, 3], .retrieve 2, .append [4, 5, 6], .append [7, 8, 9, 10, 11]] = true ∧
      ((Buffer.new 4).run
        [.append [1, 2, 3], .retrieve 2, .append [4, 5, 6], .append [7, 8, 9, 10, 11]]).peek
        = (Buffer.appended
            [.append [1, 2, 3], .retrieve 2, .append [4, 5, 6], .append [7, 8, 9, 10, 11]]).drop
          (Buffer.retrieved
            [.append [1, 2, 3], .retrieve 2, .append [4, 5, 6], .append [7, 8, 9, 10, 11]]) :=
  ⟨by decide, (buffer_readable_is_fifo 4 _ (by decide) (by decide)).1⟩

/-- C3: with all four callbacks set, `handleEventWithGuard` invokes the
handlers obtained by filtering the list close, error, read, write with:
close iff hang-up is set and readable is not, error iff error is set, read
iff readable or priority-readable is set, write iff writable is set.  Hence
every handler runs at most once and never out of that order. -/
theorem handleEventWithGuard_dispatch (c : Channel)
    (hclose : c.closeCallback_ = true) (herror : c.errorCallback_ = true)
    (hread : c.readCallback_ = true) (hwrite : c.writeCallback_ = true) :
    c.handleEventWithGuard
        = [Handler.close, Handler.error, Handler.read, Handler.write].filter
            (Channel.wanted c.revent_) ∧
      c.handleEventWithGuard.Sublist [Handler.close, Handler.error, Handler.read, Handler.write] ∧
      c.handleEventWithGuard.Nodup := by
  have key : c.handleEventWithGuard
      = [Handler.close, Handler.error, Handler.read, Handler.write].filter
          (Channel.wanted c.revent_) := by
    have e4 : c.revent_ &&& EPOLLHUP = c.revent_ &&& 2 ^ 4 := rfl
    have e3 : c.revent_ &&& EPOLLERR = c.revent_ &&& 2 ^ 3 := rfl
    have e2 : c.revent_ &&& EPOLLOUT = c.revent_ &&& 2 ^ 2 := rfl
    have e0 : c.revent_ &&& EPOLLIN = c.revent_ &&& 2 ^ 0 := rfl
    have e01 : c.revent_ &&& (EPOLLIN ||| EPOLLPRI) = c.revent_ &&& 3 := rfl
    unfold Channel.handleEventWithGuard
    rw [e4, e3, e2, e0, e01, Channel.and_two_pow_ne_zero, Channel.and_two_pow_ne_zero,
      Channel.and_two_pow_ne_zero, Channel.and_two_pow_ne_zero, Channel.and_three_ne_zero,
      hclose, herror, hread, hwrite]
    simp only [List.filter, Channel.wanted]
    cases c.revent_.testBit 0 <;> cases c.revent_.testBit 1 <;> cases c.revent_.testBit 2 <;>
      cases c.revent_.testBit 3 <;> cases c.revent_.testBit 4 <;> rfl
  refine ⟨key, ?_, ?_⟩
  · rw [key]
    exact List.filter_sublist _
  · rw [key]
    exact List.Nodup.filter _ (by decide)

/-- Witness of C3: hang-up, error and writable reported together. -/
theorem handleEventWithGuard_dispatch_witness :
    (({ Channel.new 5 with
          revent_ := 0x01c, readCallback_ := true, writeCallback_ := true
          closeCallback_ := true, errorCallback_ := true } : Channel).handleEventWithGuard
        = [Handler.close, Handler.error, Handler.write]) :=
  (handleEventWithGuard_dispatch
    { Channel.new 5 with
      revent_ := 0x01c, readCallback_ := true, writeCallback_ := true
      closeCallback_ := true, errorCallback_ := true } rfl rfl rfl rfl).1.trans (by decide)

/-- C4, evaluated at the failing input: a Connected connection, `send("x")`
called from a thread other than the loop thread.  The call returns the
connection as it was: `sendInLoop` is neither run nor queued on the loop, so
the byte is never emitted.  Called on the loop thread, the same `send` is
`sendInLoop` run on the spot. -/
theorem send_connected_off_loop_drops :
    (TcpConnection.established 5).state_ = StateE.kConnected ∧
      (TcpConnection.established 5).send false [120] (IoResult.ok 1)
        = TcpConnection.established 5 ∧
      ((TcpConnection.established 5).send false [120] (IoResult.ok 1)).loop_.pendingFunctors_
        = [] ∧
      (TcpConnection.established 5).send true [120] (IoResult.ok 1)
        = (TcpConnection.established 5).sendInLoop [120] (IoResult.ok 1) :=
  ⟨rfl, rfl, rfl, rfl⟩

set_option maxRecDepth 1000000 in
/-- C5, evaluated at the failing input: a connection still in Connecting,
`send("x")`.  On the loop thread `sendInLoop` runs: the write is attempted
and, the kernel taking nothing, the byte lands in the output buffer and write
interest is enabled.  Off the loop thread `sendInLoop` is queued on the
loop. -/
theorem send_not_connected_still_sends :
    (TcpConnection.new 5).state_ = StateE.kConnecting ∧
      ((TcpConnection.new 5).send true [120] (IoResult.ok 0)).trace
        = [Effect.setKeepAlive, Effect.write [120], Effect.updateChannel 4] ∧
      ((TcpConnection.new 5).send true [120] (IoResult.ok 0)).outputBuffer_.peek = [120] ∧
      ((TcpConnection.new 5).send true [120] (IoResult.ok 0)).channel_.isWriting = true ∧
      (TcpConnection.new 5).channel_.isWriting = false ∧
      ((TcpConnection.new 5).send false [120] (IoResult.ok 0)).loop_.pendingFunctors_
        = [ConnFunctor.sendInLoop [120]] := by
  decide

/-- C6: on a connection that is not DisConnected, when the direct write did
not fail with `EPIPE` or `ECONNRESET`, the readable bytes of the output
buffer after `sendInLoop(data, len)` are the readable bytes before it
followed by `data[written..len)`, where `written` is the count the direct
write reported and `0` when there was no direct write or it failed; when that
suffix is not empty, write interest is enabled afterwards; and a direct write
of `w` bytes leaves `len - w` readable bytes. -/
theorem sendInLoop_buffers_unwritten_suffix (c : TcpConnection) (data : List Byte) (wr : IoResult)
    (hstate : c.state_ ≠ .kDisConnected) (hinv : c.outputBuffer_.Inv)
    (hwr : wr.within data.length = true) (hfault : c.faulted wr = false) :
    (c.sendInLoop data wr).outputBuffer_.peek
        = c.outputBuffer_.peek ++ data.drop (c.written wr) ∧
      (data.drop (c.written wr) ≠ [] → (c.sendInLoop data wr).channel_.isWriting = true) ∧
      (c.attemptsWrite = true → ∀ w, wr = .ok w →
        (c.sendInLoop data wr).outputBuffer_.readableBytes = data.length - w) := by
  obtain ⟨h1, h2, _⟩ := TcpConnection.sendInLoop_spec c data wr hstate
  have hle := TcpConnection.written_le c data wr hwr
  rw [h1, h2, hfault]
  simp only [Bool.not_false, Bool.true_and, decide_eq_true_eq]
  by_cases hr : data.length - c.written wr > 0
  · simp only [hr, if_true]
    refine ⟨Buffer.peek_append _ _ hinv, fun _ => trivial, ?_⟩
    intro ha w hw
    subst hw
    rw [Buffer.readableBytes_append _ _ hinv]
    simp only [TcpConnection.attemptsWrite, Bool.and_eq_true, beq_iff_eq] at ha
    simp only [TcpConnection.written, TcpConnection.attemptsWrite, ha, List.length_drop]
    simp
  · simp only [hr, if_false]
    have hd : data.drop (c.written wr) = [] := List.drop_of_length_le (by omega)
    refine ⟨by rw [hd, List.append_nil], fun hne => absurd hd hne, ?_⟩
    intro ha w hw
    subst hw
    simp only [TcpConnection.attemptsWrite, Bool.and_eq_true, beq_iff_eq] at ha
    simp only [TcpConnection.written, TcpConnection.attemptsWrite, ha] at hr
    simp at hr
    omega

set_option maxRecDepth 1000000 in
/-- Witness of C6: three bytes sent on a fresh connection, the kernel takes
one. -/
theorem sendInLoop_buffers_unwritten_suffix_witness :
    ((TcpConnection.established 5).sendInLoop [1, 2, 3] (IoResult.ok 1)).outputBuffer_.peek
        = [2, 3] ∧
      ((TcpConnection.established 5).sendInLoop [1, 2, 3] (IoResult.ok 1)).channel_.isWriting
        = true :=
  have h := sendInLoop_buffers_unwritten_suffix (TcpConnection.established 5) [1, 2, 3]
    (IoResult.ok 1) (by decide) Buffer.inv_fresh (by decide) (by decide)
  ⟨h.1.trans (by decide), h.2.1 (by decide)⟩

set_option maxRecDepth 1000000 in
/-- C7, evaluated at the failing input: high-water mark 16 with a high-water
callback set, 10 bytes pending, `sendInLoop` of 6 bytes.  Here
`oldLen < highWaterMark <= oldLen + remaining`, yet nothing is posted on the
loop, because the code tests `oldLen + remaining > highWaterMark_`.  A further
`sendInLoop` of 4 bytes starts at `oldLen = highWaterMark_` and posts nothing
either, so the buffer passes the mark without the callback ever being posted;
had the 10 pending bytes been followed by 7 instead, it is posted. -/
theorem sendInLoop_misses_exact_high_water :
    TcpConnection.nearHighWater.highWaterMarkCallback_ = true ∧
      TcpConnection.nearHighWater.highWaterMark_ = 16 ∧
      TcpConnection.nearHighWater.outputBuffer_.readableBytes = 10 ∧
      TcpConnection.nearHighWater.loop_.pendingFunctors_ = [] ∧
      (TcpConnection.nearHighWater.sendInLoop
        (List.replicate 6 66) (IoResult.ok 0)).outputBuffer_.readableBytes = 16 ∧
      (TcpConnection.nearHighWater.sendInLoop
        (List.replicate 6 66) (IoResult.ok 0)).loop_.pendingFunctors_ = [] ∧
      ((TcpConnection.nearHighWater.sendInLoop
        (List.replicate 6 66) (IoResult.ok 0)).sendInLoop
        (List.replicate 4 67) (IoResult.ok 0)).outputBuffer_.readableBytes = 20 ∧
      ((TcpConnection.nearHighWater.sendInLoop
        (List.replicate 6 66) (IoResult.ok 0)).sendInLoop
        (List.replicate 4 67) (IoResult.ok 0)).loop_.pendingFunctors_ = [] ∧
      (TcpConnection.nearHighWater.sendInLoop
        (List.replicate 7 66) (IoResult.ok 0)).loop_.pendingFunctors_
        = [ConnFunctor.highWaterMarkCallback 17] := by
  decide

/-- C8: if write interest is enabled exactly when the output buffer holds
readable bytes, the same is true after `sendInLoop`, for every state of the
connection, every `data` and every result of the direct write within the
contract of `write(2)`: full, short, `EWOULDBLOCK`, `EPIPE`, `ECONNRESET` or
another error. -/
theorem sendInLoop_keeps_interest_iff_pending (c : TcpConnection) (data : List Byte) (wr : IoResult)
    (hinv : c.outputBuffer_.Inv) (hwr : wr.within data.length = true)
    (h : c.channel_.isWriting = true ↔ c.outputBuffer_.readableBytes ≠ 0) :
    ((c.sendInLoop data wr).channel_.isWriting = true ↔
      (c.sendInLoop data wr).outputBuffer_.readableBytes ≠ 0) := by
  by_cases hstate : c.state_ = .kDisConnected
  · unfold TcpConnection.sendInLoop
    rw [if_pos hstate]
    exact h
  · obtain ⟨h1, h2, _⟩ := TcpConnection.sendInLoop_spec c data wr hstate
    have hle := TcpConnection.written_le c data wr hwr
    rw [h1, h2]
    by_cases hr : (!c.faulted wr && decide (data.length - c.written wr > 0)) = true
    · simp only [hr, if_true, Buffer.readableBytes_append _ _ hinv, List.length_drop]
      simp only [Bool.and_eq_true, decide_eq_true_eq] at hr
      simp only [true_iff]
      omega
    · simp only [hr]
      exact h

/-- Witness of C8: a fresh connection and a direct write that fails with
`EPIPE`. -/
theorem sendInLoop_keeps_interest_iff_pending_witness :
    (((TcpConnection.established 5).sendInLoop [1, 2, 3] (IoResult.err EPIPE)).channel_.isWriting
        = true ↔
      ((TcpConnection.established 5).sendInLoop [1, 2, 3]
        (IoResult.err EPIPE)).outputBuffer_.readableBytes ≠ 0) :=
  sendInLoop_keeps_interest_iff_pending (TcpConnection.established 5) [1, 2, 3]
    (IoResult.err EPIPE) Buffer.inv_fresh (by decide)
    (TcpConnection.settled_established 5).2

/-- C9: along every sequence of `sendInLoop`, `handleWrite`, `shutdown` and
`shutdownInLoop` steps from a freshly established connection (Connected, empty
output buffer, write interest off; any callbacks, high-water mark and loop),
with write results within the contract of `write(2)`: a step that half-closes
the socket (`Socket::shutdownWrite`, the last action of the step) leaves no
readable byte in the output buffer.  `shutdown()` requested while output is
pending moves to DisConnecting without half-closing; along every further
sequence of steps the state stays DisConnecting and, as long as the output
buffer has not been empty, no half-close has been performed and the next
`handleWrite` performs it exactly when it drains the buffer to empty.  More
generally, in DisConnecting with output pending `handleWrite` half-closes
exactly when it drains the buffer. -/
theorem half_close_only_after_drain (c0 : TcpConnection) (ops : List TcpConnection.PathOp)
    (hfresh : c0.FreshlyEstablished) (hok : c0.pathRunOk ops = true) :
    (∀ op, (c0.pathRun ops).pathStepOk op = true →
      ((c0.pathRun ops).pathStep op).halfCloses ≠ (c0.pathRun ops).halfCloses →
        ((c0.pathRun ops).pathStep op).outputBuffer_.readableBytes = 0) ∧
    ((c0.pathRun ops).state_ = StateE.kConnected →
      (c0.pathRun ops).outputBuffer_.readableBytes ≠ 0 →
      ∀ t, ((c0.pathRun ops).shutdown t).halfCloses = (c0.pathRun ops).halfCloses ∧
        ((c0.pathRun ops).shutdown t).state_ = StateE.kDisConnecting ∧
        ∀ more, ((c0.pathRun ops).shutdown t).pathRunOk more = true →
          (((c0.pathRun ops).shutdown t).pathRun more).state_ = StateE.kDisConnecting ∧
          (((c0.pathRun ops).shutdown t).staysPending more = true →
            (((c0.pathRun ops).shutdown t).pathRun more).halfCloses
                = (c0.pathRun ops).halfCloses ∧
              ∀ wr, wr.within
                  (((c0.pathRun ops).shutdown t).pathRun more).outputBuffer_.readableBytes
                  = true →
                ((((c0.pathRun ops).shutdown t).pathRun more).handleWrite wr).halfCloses
                  = (c0.pathRun ops).halfCloses
                    + (if ((((c0.pathRun ops).shutdown t).pathRun more).handleWrite
                          wr).outputBuffer_.readableBytes = 0
                        then 1 else 0))) ∧
    ((c0.pathRun ops).state_ = StateE.kDisConnecting →
      (c0.pathRun ops).outputBuffer_.readableBytes ≠ 0 →
      ∀ wr, wr.within (c0.pathRun ops).outputBuffer_.readableBytes = true →
        ((c0.pathRun ops).handleWrite wr).halfCloses
          = (c0.pathRun ops).halfCloses
            + (if ((c0.pathRun ops).handleWrite wr).outputBuffer_.readableBytes = 0
                then 1 else 0)) := by
  have _ := hok
  have hs := TcpConnection.settled_pathRun _ ops
    (TcpConnection.settled_of_freshlyEstablished c0 hfresh)
  generalize c0.pathRun ops = s at hs
  refine ⟨?_, ?_, ?_⟩
  · intro op _ hne
    exact TcpConnection.halfClose_step s op hs hne
  · intro hst hne t
    obtain ⟨g1, g2, h3, h4⟩ := TcpConnection.shutdown_spec s t
    have hw := hs.2.2 hne
    have hcount : (s.shutdown t).halfCloses = s.halfCloses := by
      rw [h4]
      simp [hw]
    have hstate : (s.shutdown t).state_ = StateE.kDisConnecting := by
      rw [h3]
      simp [hst]
    have hset : (s.shutdown t).Settled := by
      simp only [TcpConnection.Settled, g1, g2]
      exact hs
    refine ⟨hcount, hstate, ?_⟩
    intro more _
    have hpersist := TcpConnection.disconnecting_pathRun (s.shutdown t) more hstate
    refine ⟨hpersist, ?_⟩
    intro hpend
    obtain ⟨p1, p2⟩ := TcpConnection.staysPending_pathRun (s.shutdown t) more hset hpend
    refine ⟨by rw [p1, hcount], ?_⟩
    intro wr _
    rw [TcpConnection.handleWrite_drain _ wr
      (TcpConnection.settled_pathRun _ more hset) hpersist p2, p1, hcount]
  · intro hst hne wr _
    exact TcpConnection.handleWrite_drain s wr hs hst hne

set_option maxRecDepth 1000000 in
/-- Witness of C9: on a connection with both callbacks set, three bytes are
sent and the kernel takes one, `shutdown()` is requested, a first `handleWrite`
writes one of the two pending bytes and the next one the last: the half-close
happens in that call and not before. -/
theorem half_close_only_after_drain_witness :
    TcpConnection.establishedWithCallbacks.FreshlyEstablished ∧
      (((TcpConnection.establishedWithCallbacks.pathRun
            [.sendInLoop [1, 2, 3] (IoResult.ok 1)]).shutdown true).pathRun
          [.handleWrite (IoResult.ok 1)]).halfCloses = 0 ∧
      ((((TcpConnection.establishedWithCallbacks.pathRun
            [.sendInLoop [1, 2, 3] (IoResult.ok 1)]).shutdown true).pathRun
          [.handleWrite (IoResult.ok 1)]).handleWrite (IoResult.ok 1)).halfCloses = 1 ∧
      ((((TcpConnection.establishedWithCallbacks.pathRun
            [.sendInLoop [1, 2, 3] (IoResult.ok 1)]).shutdown true).pathRun
          [.handleWrite (IoResult.ok 1)]).handleWrite (IoResult.ok 1)).loop_.pendingFunctors_
        = [ConnFunctor.writeCompleteCallback] :=
  have h := half_close_only_after_drain TcpConnection.establishedWithCallbacks
    [.sendInLoop [1, 2, 3] (IoResult.ok 1)] (by decide) (by decide)
  have h2 := (h.2.1 (by decide) (by decide) true).2.2 [.handleWrite (IoResult.ok 1)]
    (by decide)
  ⟨by decide, (h2.2 (by decide)).1.trans (by decide),
    ((h2.2 (by decide)).2 (IoResult.ok 1) (by decide)).trans (by decide), by decide⟩

/-- C10, counterexample: `handleClose` puts an established connection in
DisConnected, and `connectEstablished` then moves it to Connected. -/
theorem disconnected_left_by_connectEstablished :
    (TcpConnection.established 5).handleClose.state_ = StateE.kDisConnected ∧
      ((TcpConnection.established 5).handleClose.apply
        TcpConnection.ConnOp.connectEstablished).state_ ≠ StateE.kDisConnected := by
  decide

/-- C10, amended: on a DisConnected connection every operation other than
`connectEstablished` (`connectDestroyed`, `send`, `sendInLoop`, `shutdown`,
`shutdownInLoop`, `handleRead`, `handleWrite`, `handleClose`, `handleError`)
leaves the state DisConnected, while `connectEstablished` sets the state to
Connected whatever it was. -/
theorem disconnected_terminal_except_connectEstablished (c : TcpConnection)
    (op : TcpConnection.ConnOp) (h : c.state_ = StateE.kDisConnected) :
    (op ≠ TcpConnection.ConnOp.connectEstablished →
        (c.apply op).state_ = StateE.kDisConnected) ∧
      (c.apply TcpConnection.ConnOp.connectEstablished).state_ = StateE.kConnected := by
  refine ⟨?_, rfl⟩
  intro hop
  cases op with
  | connectEstablished => exact absurd rfl hop
  | connectDestroyed =>
    simp [TcpConnection.apply, TcpConnection.connectDestroyed, h, TcpConnection.emit]
  | send t buf wr =>
    cases t <;>
      simp [TcpConnection.apply, TcpConnection.send, TcpConnection.runInLoop,
        TcpConnection.sendInLoop, h]
  | sendInLoop data wr => simp [TcpConnection.apply, TcpConnection.sendInLoop, h]
  | shutdown t => simp [TcpConnection.apply, TcpConnection.shutdown, h]
  | shutdownInLoop =>
    rw [TcpConnection.apply, (TcpConnection.shutdownInLoop_spec c).2.2.1, h]
  | handleRead rr =>
    cases rr with
    | data bytes =>
      simp only [TcpConnection.apply, TcpConnection.handleRead]
      split <;>
        simp [TcpConnection.emit, TcpConnection.handleClose, TcpConnection.channelUpdate,
          TcpConnection.setState, h]
    | err e =>
      simp [TcpConnection.apply, TcpConnection.handleRead, TcpConnection.handleError,
        TcpConnection.emit, h]
  | handleWrite wr =>
    cases hw : c.channel_.isWriting
    · rw [TcpConnection.apply, TcpConnection.handleWrite_idle c wr hw, h]
    · rw [TcpConnection.apply, (TcpConnection.handleWrite_spec c wr hw).1, h]
  | handleClose =>
    simp [TcpConnection.apply, TcpConnection.handleClose, TcpConnection.emit,
      TcpConnection.channelUpdate, TcpConnection.setState]
  | handleError => simp [TcpConnection.apply, TcpConnection.handleError, TcpConnection.emit, h]

/-- Witness of C10: a closed connection that receives a writable event. -/
theorem disconnected_terminal_except_connectEstablished_witness :
    (TcpConnection.established 5).handleClose.state_ = StateE.kDisConnected ∧
      ((TcpConnection.established 5).handleClose.apply
        (TcpConnection.ConnOp.handleWrite (IoResult.ok 1))).state_ = StateE.kDisConnected :=
  ⟨by decide,
    (disconnected_terminal_except_connectEstablished (TcpConnection.established 5).handleClose
      (TcpConnection.ConnOp.handleWrite (IoResult.ok 1)) (by decide)).1 (by decide)⟩

/-- C11: `doPendingFunctors` invokes exactly the functors that were pending
when it started, each once and in enqueue order; the functors they hand to
`queueInLoop` while the drain runs are not invoked by it and are, in enqueue
order, the pending queue when it returns; each of them caused one `wakeup()`,
which `queueInLoop` called on the loop thread only because the draining flag
was set; the flag is clear again afterwards. -/
theorem doPendingFunctors_runs_snapshot {φ : Type} (spawn : φ → List φ) (l : EventLoop φ) :
    (l.doPendingFunctors spawn).2 = l.pendingFunctors_ ∧
      (l.doPendingFunctors spawn).1.pendingFunctors_ = l.pendingFunctors_.flatMap spawn ∧
      (l.doPendingFunctors spawn).1.wakeups
        = l.wakeups + (l.pendingFunctors_.flatMap spawn).length ∧
      (l.doPendingFunctors spawn).1.callingPendingFunctors_ = false ∧
      (∀ g, (l.queueInLoop true g).wakeups
        = l.wakeups + (if l.callingPendingFunctors_ = true then 1 else 0)) := by
  obtain ⟨h1, h2, h3⟩ := EventLoop.drain_loop spawn l.pendingFunctors_
    { l with callingPendingFunctors_ := true, pendingFunctors_ := [] } [] rfl
  refine ⟨?_, ?_, ?_, rfl, ?_⟩
  · simpa [EventLoop.doPendingFunctors] using h1
  · simpa [EventLoop.doPendingFunctors] using h2
  · simpa [EventLoop.doPendingFunctors] using h3
  · intro g
    cases hc : l.callingPendingFunctors_ <;> simp [EventLoop.queueInLoop, hc]

/-- C12: on a well-formed buffer with `writableBytes() < n`, where the vector
size and `writerIndex_ + n` are representable in `size_t` (so that no sum
`makeSpace` computes wraps around), the space-making step of `append(data, n)`
is `makeSpace(n)` and: if writable + prependable >= n + 8 it compacts
(capacity unchanged, `readerIndex_` becomes 8, readable count and content
unchanged); otherwise it grows the capacity to exactly the old
`writerIndex_ + n` and leaves both indices (and the content) unchanged; in
both cases `writableBytes() >= n` afterwards, so the `n` bytes copied at
`writerIndex_` stay inside the vector. -/
theorem makeSpace_compacts_or_grows (b : Buffer) (n : Nat) (h : b.Inv)
    (hcap : b.capacity < Buffer.sizeRange) (hsum : b.writerIndex_ + n < Buffer.sizeRange)
    (hw : b.writableBytes < n) :
    b.ensureWritableBytes n = b.makeSpace n ∧
      (b.writableBytes + b.prependableBytes ≥ n + Buffer.kCheapPrepend →
        (b.makeSpace n).capacity = b.capacity ∧
          (b.makeSpace n).readerIndex_ = Buffer.kCheapPrepend ∧
          (b.makeSpace n).readableBytes = b.readableBytes ∧
          (b.makeSpace n).peek = b.peek) ∧
      (b.writableBytes + b.prependableBytes < n + Buffer.kCheapPrepend →
        (b.makeSpace n).capacity = b.writerIndex_ + n ∧
          (b.makeSpace n).readerIndex_ = b.readerIndex_ ∧
          (b.makeSpace n).writerIndex_ = b.writerIndex_ ∧
          (b.makeSpace n).peek = b.peek) ∧
      n ≤ (b.makeSpace n).writableBytes ∧
      (b.makeSpace n).writerIndex_ + n ≤ (b.makeSpace n).capacity ∧
      (b.makeSpace n).capacity < Buffer.sizeRange := by
  have he : b.ensureWritableBytes n = b.makeSpace n := by
    unfold Buffer.ensureWritableBytes
    rw [if_pos hw]
  obtain ⟨⟨_, _, g3⟩, hroom, hpeek⟩ := Buffer.ensureWritableBytes_spec b n h
  rw [he] at g3 hroom hpeek
  obtain ⟨h1, h2, h3⟩ := h
  refine ⟨he, ?_, ?_, hroom, ?_, ?_⟩
  · intro hc
    have hnot : ¬ (b.writableBytes + b.prependableBytes < n + Buffer.kCheapPrepend) := by omega
    refine ⟨?_, ?_, ?_, hpeek⟩
    · simp only [Buffer.makeSpace, if_neg hnot, Buffer.capacity, Buffer.length_copyWithin]
    · simp only [Buffer.makeSpace, if_neg hnot]
    · simp only [Buffer.makeSpace, if_neg hnot, Buffer.readableBytes]
      omega
  · intro hc
    refine ⟨?_, ?_, ?_, hpeek⟩
    · simp only [Buffer.makeSpace, if_pos hc, Buffer.capacity, Buffer.length_vecResize]
    · simp only [Buffer.makeSpace, if_pos hc]
    · simp only [Buffer.makeSpace, if_pos hc]
  · simp only [Buffer.writableBytes, Buffer.capacity] at hroom ⊢
    omega
  · by_cases hc : b.writableBytes + b.prependableBytes < n + Buffer.kCheapPrepend
    · simp only [Buffer.makeSpace, if_pos hc, Buffer.capacity, Buffer.length_vecResize]
      exact hsum
    · simp only [Buffer.makeSpace, if_neg hc, Buffer.capacity, Buffer.length_copyWithin]
      exact hcap

/-- Witness of C12: a twelve-char buffer with two readable bytes at index
10; room for two more is made by compaction. -/
theorem makeSpace_compacts_or_grows_witness :
    (Buffer.makeSpace ⟨[0, 0, 0, 0, 0, 0, 0, 0, 1, 2, 3, 4], 10, 12⟩ 2).readerIndex_ = 8 ∧
      (Buffer.makeSpace ⟨[0, 0, 0, 0, 0, 0, 0, 0, 1, 2, 3, 4], 10, 12⟩ 2).peek = [3, 4] ∧
      2 ≤ (Buffer.makeSpace ⟨[0, 0, 0, 0, 0, 0, 0, 0, 1, 2, 3, 4], 10, 12⟩ 2).writableBytes :=
  have h := makeSpace_compacts_or_grows ⟨[0, 0, 0, 0, 0, 0, 0, 0, 1, 2, 3, 4], 10, 12⟩ 2
    (by decide) (by decide) (by decide) (by decide)
  ⟨(h.2.1 (by decide)).2.1, (h.2.1 (by decide)).2.2.2.trans (by decide), h.2.2.2.1⟩

/-- C13: a second `connectDestroyed()` right after a first one leaves the
state variable, the channel (its interest mask included) and the registration
of the channel with the poller as the first call left them, and does not
invoke the user connection callback: it only asks the loop once more to remove
the channel.  The first call invokes the callback exactly when the state was
Connected, and then the state becomes DisConnected and no interest is left
enabled. -/
theorem connectDestroyed_twice_as_once (c : TcpConnection) :
    c.connectDestroyed.connectDestroyed = c.connectDestroyed.emit Effect.removeChannel ∧
      c.connectDestroyed.connectDestroyed.state_ = c.connectDestroyed.state_ ∧
      c.connectDestroyed.connectDestroyed.channel_ = c.connectDestroyed.channel_ ∧
      c.connectDestroyed.connectDestroyed.registration = c.connectDestroyed.registration ∧
      c.connectDestroyed.connectDestroyed.connectionCalls
        = c.connectDestroyed.connectionCalls ∧
      c.connectDestroyed.connectionCalls
        = c.connectionCalls + (if c.state_ = StateE.kConnected then 1 else 0) ∧
      (c.state_ = StateE.kConnected →
        c.connectDestroyed.state_ = StateE.kDisConnected ∧
          c.connectDestroyed.channel_.isNoneEvent = true ∧
          c.connectDestroyed.channel_.isReading = false ∧
          c.connectDestroyed.channel_.isWriting = false) := by
  have h2 := TcpConnection.connectDestroyed_idle c.connectDestroyed
    (TcpConnection.connectDestroyed_state_ne c)
  refine ⟨h2, ?_, ?_, ?_, ?_, ?_, ?_⟩
  · rw [h2]; rfl
  · rw [h2]; rfl
  · rw [h2, TcpConnection.registration_emit_removeChannel]
    by_cases h : c.state_ = StateE.kConnected
    · rw [TcpConnection.connectDestroyed_connected c h,
        TcpConnection.registration_emit_removeChannel]
    · rw [TcpConnection.connectDestroyed_idle c h,
        TcpConnection.registration_emit_removeChannel]
  · rw [h2, TcpConnection.connectionCalls_emit_removeChannel]
  · by_cases h : c.state_ = StateE.kConnected
    · rw [TcpConnection.connectDestroyed_connected c h,
        TcpConnection.connectionCalls_emit_removeChannel]
      simp [TcpConnection.connectionCalls, TcpConnection.emit, TcpConnection.channelUpdate,
        TcpConnection.setState, List.countP_append, h]
    · rw [TcpConnection.connectDestroyed_idle c h,
        TcpConnection.connectionCalls_emit_removeChannel]
      simp [h]
  · intro h
    rw [TcpConnection.connectDestroyed_connected c h]
    simp [TcpConnection.emit, TcpConnection.channelUpdate, TcpConnection.setState,
      Channel.disableAll, Channel.isNoneEvent, Channel.isReading, Channel.isWriting,
      Channel.kNoneEvent]

set_option maxRecDepth 1000000 in
/-- Witness of C13: an established connection is destroyed twice; the user
connection callback has run twice in all, once on establishment and once in
the first `connectDestroyed()`. -/
theorem connectDestroyed_twice_as_once_witness :
    (TcpConnection.established 5).connectDestroyed.state_ = StateE.kDisConnected ∧
      (TcpConnection.established 5).connectDestroyed.connectDestroyed.connectionCalls = 2 ∧
      (TcpConnection.established 5).connectDestroyed.connectDestroyed.registration
        = Registration.new :=
  have h := connectDestroyed_twice_as_once (TcpConnection.established 5)
  ⟨(h.2.2.2.2.2.2 (by decide)).1, h.2.2.2.2.1.trans (by decide), h.2.2.2.1.trans (by decide)⟩

/-- C14: when `sendInLoop(data, len)` attempts a direct write and it fails
with `EPIPE` or `ECONNRESET`, the fault flag is set and the call does nothing
beyond the write attempt: output buffer, channel (write interest included),
state and the pending queue of the loop are as before, so neither the
write-completion nor the high-water callback is posted.  When it fails with
`EWOULDBLOCK`, zero bytes count as written and all `len` bytes are appended to
the (empty) output buffer, with write interest enabled when `len > 0`. -/
theorem sendInLoop_fault_abandons_data (c : TcpConnection) (data : List Byte)
    (hstate : c.state_ ≠ StateE.kDisConnected) (ha : c.attemptsWrite = true)
    (hinv : c.outputBuffer_.Inv) :
    (∀ errno, errno = EPIPE ∨ errno = ECONNRESET →
      (TcpConnection.sendInLoopDirect c data (IoResult.err errno)).faultError = true ∧
        c.sendInLoop data (IoResult.err errno) = c.emit (Effect.write data) ∧
        (c.sendInLoop data (IoResult.err errno)).outputBuffer_ = c.outputBuffer_ ∧
        (c.sendInLoop data (IoResult.err errno)).channel_ = c.channel_ ∧
        (c.sendInLoop data (IoResult.err errno)).state_ = c.state_ ∧
        (c.sendInLoop data (IoResult.err errno)).loop_ = c.loop_) ∧
      (TcpConnection.sendInLoopDirect c data (IoResult.err EWOULDBLOCK)).faultError = false ∧
      (TcpConnection.sendInLoopDirect c data (IoResult.err EWOULDBLOCK)).rwrote = 0 ∧
      (c.sendInLoop data (IoResult.err EWOULDBLOCK)).outputBuffer_.peek
        = c.outputBuffer_.peek ++ data ∧
      (c.sendInLoop data (IoResult.err EWOULDBLOCK)).outputBuffer_.readableBytes
        = data.length ∧
      (data ≠ [] → (c.sendInLoop data (IoResult.err EWOULDBLOCK)).channel_.isWriting = true) := by
  have hr : c.outputBuffer_.readableBytes = 0 := by
    simp only [TcpConnection.attemptsWrite, Bool.and_eq_true, beq_iff_eq] at ha
    exact ha.2
  obtain ⟨d1, _, d3⟩ := TcpConnection.direct_locals c data (IoResult.err EWOULDBLOCK)
  obtain ⟨s1, s2, _⟩ := TcpConnection.sendInLoop_spec c data (IoResult.err EWOULDBLOCK) hstate
  have hfalse : c.faulted (IoResult.err EWOULDBLOCK) = false := by
    simp [TcpConnection.faulted, EWOULDBLOCK, EPIPE, ECONNRESET]
  have hzero : c.written (IoResult.err EWOULDBLOCK) = 0 := rfl
  rw [hfalse, hzero] at s1 s2
  simp only [Bool.not_false, Bool.true_and, Nat.sub_zero, List.drop_zero,
    decide_eq_true_eq] at s1 s2
  refine ⟨?_, by rw [d3, hfalse], by rw [d1, hzero], ?_, ?_, ?_⟩
  · intro errno he
    have hfault := TcpConnection.sendInLoop_fault c data errno hstate ha he
    refine ⟨?_, hfault, by rw [hfault]; rfl, by rw [hfault]; rfl, by rw [hfault]; rfl,
      by rw [hfault]; rfl⟩
    rw [(TcpConnection.direct_locals c data (IoResult.err errno)).2.2]
    rcases he with he | he <;> subst he <;> simp [TcpConnection.faulted, ha]
  · rw [s1]
    by_cases hl : data.length > 0
    · rw [if_pos hl, Buffer.peek_append _ _ hinv]
    · have : data = [] := List.length_eq_zero.mp (by omega)
      rw [if_neg hl, this, List.append_nil]
  · rw [s1]
    by_cases hl : data.length > 0
    · rw [if_pos hl, Buffer.readableBytes_append _ _ hinv, hr, Nat.zero_add]
    · rw [if_neg hl, hr]
      omega
  · intro hne
    have hl : data.length > 0 := List.length_pos.mpr hne
    rw [s2, if_pos hl]

set_option maxRecDepth 1000000 in
/-- Witness of C14: three bytes sent on a fresh connection whose peer has
reset it. -/
theorem sendInLoop_fault_abandons_data_witness :
    ((TcpConnection.established 5).sendInLoop [1, 2, 3] (IoResult.err ECONNRESET)).outputBuffer_
        = (TcpConnection.established 5).outputBuffer_ ∧
      ((TcpConnection.established 5).sendInLoop [1, 2, 3]
        (IoResult.err EWOULDBLOCK)).outputBuffer_.peek = [1, 2, 3] :=
  have h := sendInLoop_fault_abandons_data (TcpConnection.established 5) [1, 2, 3]
    (by decide) (by decide) Buffer.inv_fresh
  ⟨(h.1 ECONNRESET (Or.inr rfl)).2.2.1, h.2.2.2.1.trans (by decide)⟩

end Mymuduo
